import Mathlib

/-!
Verification of the forward-scattering dipole core (fwdscat_impl.h) against
its specification.  The C++ routines are shallowly embedded over exact real
arithmetic (IEEE doubles become real numbers; transcendental calls become
Real.exp, Real.sqrt, Real.rpow).  External collaborators that the core only
uses through an interface (the renderer sampler, the truncated-normal
primitive, boost erf and the toms748 bracketing solver, mitsuba refraction
and Fresnel helpers, and the compile-time direction-regularization constant
defined outside this translation unit) are collected in an `Externals` record and
kept abstract, exactly as the specification describes them at their
interface boundary.  Checks of the form isfinite/isnan are vacuous over the
reals and are dropped; every such spot is noted next to the definition.
-/

noncomputable section

/-- Three-component real vector (mitsuba Vector / Normal / Vector3d). -/
@[ext]
structure Vec3 where
  x : ℝ
  y : ℝ
  z : ℝ

instance : DecidableEq Vec3 := fun a b =>
  decidable_of_iff (a.x = b.x ∧ a.y = b.y ∧ a.z = b.z) (Vec3.ext_iff).symm

instance : Add Vec3 := ⟨fun a b => ⟨a.x + b.x, a.y + b.y, a.z + b.z⟩⟩

instance : Sub Vec3 := ⟨fun a b => ⟨a.x - b.x, a.y - b.y, a.z - b.z⟩⟩

instance : Neg Vec3 := ⟨fun a => ⟨-a.x, -a.y, -a.z⟩⟩

instance : SMul ℝ Vec3 := ⟨fun c a => ⟨c * a.x, c * a.y, c * a.z⟩⟩

instance : Zero Vec3 := ⟨⟨0, 0, 0⟩⟩

/-- Dot product. -/
def dot (a b : Vec3) : ℝ := a.x * b.x + a.y * b.y + a.z * b.z

/-- Cross product. -/
def cross (a b : Vec3) : Vec3 :=
  ⟨a.y * b.z - a.z * b.y, a.z * b.x - a.x * b.z, a.x * b.y - a.y * b.x⟩

/-- Squared euclidean norm (mitsuba lengthSquared). -/
def Vec3.lengthSq (a : Vec3) : ℝ := dot a a

/-- Euclidean norm (mitsuba length). -/
def Vec3.length (a : Vec3) : ℝ := Real.sqrt a.lengthSq

/-- mitsuba normalize: v / |v|. -/
def Vec3.normalize (a : Vec3) : Vec3 := (1 / a.length) • a

/-- mitsuba math::clamp. -/
def clamp (x lo hi : ℝ) : ℝ := min (max x lo) hi

/-- Real cube root (C cbrt), defined for negative arguments as well. -/
def cbrt (v : ℝ) : ℝ := if 0 ≤ v then v ^ ((1 : ℝ) / 3) else -((-v) ^ ((1 : ℝ) / 3))

/-- The medium parameters carried by the FwdScat object: scattering
coefficient, absorption coefficient, mean cosine, relative refractive
index. -/
structure FwdScat where
  sigma_s : ℝ
  sigma_a : ℝ
  mu : ℝ
  m_eta : ℝ

/-- Tangent-plane convention used by the virtual source constructor. -/
inductive TangentPlaneMode where
  | EFrisvadEtAl
  | EFrisvadEtAlWithMeanNormal
  | EUnmodifiedIncoming
  | EUnmodifiedOutgoing

/-- Virtual-source-height model. -/
inductive ZvMode where
  | EFrisvadEtAlZv
  | EBetterDipoleZv
  | EClassicDiffusion

/-- Dipole-component selector (C++ bit mask EReal = 1, EVirt = 2,
RealAndVirt = 3). -/
inductive DipoleMode where
  | EReal
  | EVirt
  | ERealAndVirt

/-- Whether the mask contains the real component (dipoleMode & EReal). -/
def DipoleMode.hasReal : DipoleMode → Bool
  | .EReal => true
  | .EVirt => false
  | .ERealAndVirt => true

/-- Whether the mask contains the virtual component (dipoleMode & EVirt). -/
def DipoleMode.hasVirt : DipoleMode → Bool
  | .EReal => false
  | .EVirt => true
  | .ERealAndVirt => true

/-- The length-dependent shape coefficients C, D, E, F and the auxiliary
combination Z returned by FwdScat::calcValues. -/
structure ShapeParams where
  C : ℝ
  D : ℝ
  E : ℝ
  F : ℝ
  Z : ℝ

/-- Series branch of FwdScat::calcValues (source regime ps < 0.3): power
series in ps for the dimensionless D, E, F, with Z computed as E^2/F - 2D,
then E and F rescaled by p and p^2. -/
def calcValuesSeries (fs : FwdScat) (length : ℝ) : ShapeParams :=
  let p := 0.5 * fs.mu * fs.sigma_s
  let ps := p * length
  let ps2 := ps * ps
  let ps3 := ps2 * ps
  let ps5 := ps2 * ps3
  let C := 3 / ps
  let D := 1.5 / ps - 0.1 * ps + 13 / 1050 * ps3 - 11 / 7875 * ps5
  let E := (4.5 / ps + 0.3 * ps - 3 / 350 * ps3) / ps
  let F := (4.5 / ps + 1.8 * ps - 3 / 350 * ps3) / ps2
  let Z := E * E / F - 2 * D
  ⟨C, D, E * p, F * (p * p), Z⟩

/-- Asymptotic branch of FwdScat::calcValues (source regime ps > 9):
t = exp(-2 ps) substituted by 0 except in Z. -/
def calcValuesAsympt (fs : FwdScat) (length : ℝ) : ShapeParams :=
  let p := 0.5 * fs.mu * fs.sigma_s
  let ps := p * length
  let t := Real.exp (-2 * ps)
  let t2 := t * t
  let C := 3 / ps
  let tmp := 1 / (ps - 1)
  let D := 0.75 * tmp
  let E := 1.5 * tmp
  let F := 1.5 * tmp
  let Z := 6 * t / (1 - t2)
  ⟨C, D, E * p, F * (p * p), Z⟩

/-- Exact closed-form branch of FwdScat::calcValues (source regime
0.3 <= ps <= 9), in terms of t = exp(-2 ps). -/
def calcValuesExact (fs : FwdScat) (length : ℝ) : ShapeParams :=
  let p := 0.5 * fs.mu * fs.sigma_s
  let ps := p * length
  let t := Real.exp (-2 * ps)
  let t2 := t * t
  let C := 3 / ps
  let D := 0.75 * (1 - 4 * ps * t - t2) / (ps - 1 + 2 * t - (ps + 1) * t2)
  let E := 1.5 * (1 - t) / (ps - 1 + (ps + 1) * t)
  let F := 1.5 * (1 + t) / (ps - 1 + (ps + 1) * t)
  let Z := 6 * t / (1 - t2)
  ⟨C, D, E * p, F * (p * p), Z⟩

/-- FwdScat::calcValues: shape parameters of the propagator, dispatching on
the optical depth ps = 0.5 mu sigma_s length into the three regimes of the
source. -/
def calcValues (fs : FwdScat) (length : ℝ) : ShapeParams :=
  let p := 0.5 * fs.mu * fs.sigma_s
  let ps := p * length
  if ps < 0.3 then calcValuesSeries fs length
  else if ps > 9 then calcValuesAsympt fs length
  else calcValuesExact fs length

/-- The factor Z/(exp(Z)-1) of FwdScat::absorptionAndNormalizationConstant,
as the source computes it: a 4-term series when Z < 0.002 (the comment in
the source documents the intended value as Z / (exp(Z) - 1)), the closed
form otherwise. -/
def ZoverExpMinOne (Z : ℝ) : ℝ :=
  if Z < 0.002 then 1 + 0.5 * Z + 1 / 12 * Z * Z - 1 / 720 * Z * Z * Z * Z
  else Z / (Real.exp Z - 1)

/-- FwdScat::absorptionAndNormalizationConstant: Gaussian normalization of
the propagator combined with exp(-sigma_a length) attenuation; a direct
power series in ps below ps = 0.006, else the closed form through
calcValues.  (The debug-only finiteness warning of the source is
diagnostics and is not modelled.) -/
def absorptionAndNormalizationConstant (fs : FwdScat) (theLength : ℝ) : ℝ :=
  let p := 0.5 * fs.sigma_s * fs.mu
  let ps := p * theLength
  if ps < 0.006 then
    let c0 : ℝ := 81 / 32
    let c1 : ℝ := 891 / 320
    let c2 : ℝ := 8721 / 6400
    let c3 : ℝ := -374841 / 448000
    p * p * p * Real.sqrt 2 * Real.pi ^ (-(5 / 2 : ℝ)) * Real.exp (-fs.sigma_a * theLength)
      * ps ^ (-(11 / 2 : ℝ)) * (c0 + c1 * ps + c2 * ps * ps + c3 * ps * ps * ps)
  else
    let v := calcValues fs theLength
    0.25 / Real.pi ^ ((5 / 2 : ℝ)) * Real.exp (v.C - v.D - fs.sigma_a * theLength)
      * Real.sqrt v.F * v.F * ZoverExpMinOne v.Z

/-- The external collaborators the core consumes, specified only at their
interface boundary (spec section 6): the renderer random source, the
truncated-normal primitive restricted to the support [0, oo) as every call
of the length samplers uses it, boost erf, the toms748 bracketed root
solver (None models an exception or non-convergence), the dEon_A and
fresnelDiffuseReflectance helpers of dipoleUtil, mitsuba refract (returning
the refracted direction, the zero vector on total internal reflection, and
the Fresnel reflectance), the compile-time direction-regularization
constant MTS_FWDSCAT_DIRECTION_MIN_MU from fwdscat.h, and the fuel used to
model the do-while retry loop around the truncated-normal draw. -/
structure Externals (σ : Type) where
  next1D : σ → ℝ × σ
  truncnormSample0Inf : ℝ → ℝ → σ → ℝ × σ
  truncnormPdf0Inf : ℝ → ℝ → ℝ → ℝ
  erf : ℝ → ℝ
  toms748 : (ℝ → ℝ) → ℝ → ℝ → ℕ → Option (ℝ × ℝ)
  dEon_A : ℝ → ℝ
  fresnelDiffuseReflectance : ℝ → ℝ
  refract : Vec3 → Vec3 → ℝ → Vec3 × ℝ
  directionMinMu : ℝ
  retryFuel : ℕ

/-- FwdScat::getVirtualDipoleSource.  Returns (u0_virt, R_virt,
n0_effective), or none where the source returns false: degenerate tangent
frame, rejected internal incoming direction, or zero reduced coefficients.
The isFinite check on n0_effective is vacuous over the reals.  The n0 and
nL arguments are the mitsuba Normal parameters; length is accepted and,
as in the source, never used. -/
def getVirtualDipoleSource {σ : Type} (ext : Externals σ) (fs : FwdScat)
    (n0 u0 nL uL R : Vec3) (length : ℝ) (rejectInternalIncoming : Bool)
    (tangentMode : TangentPlaneMode) (zvMode : ZvMode) :
    Option (Vec3 × Vec3 × Vec3) :=
  let n0_effective? : Option Vec3 :=
    match tangentMode with
    | .EFrisvadEtAl =>
        if R.length = 0 then some n0
        else if (cross n0 R).length = 0 then none
        else some (cross R.normalize (cross n0 R).normalize)
    | .EFrisvadEtAlWithMeanNormal =>
        let sumNormal := n0 + nL
        if R.length = 0 then some n0
        else if (cross sumNormal R).length = 0 then none
        else some (cross R.normalize (cross sumNormal R).normalize)
    | .EUnmodifiedIncoming => some n0
    | .EUnmodifiedOutgoing => some nL
  match n0_effective? with
  | none => none
  | some n0_effective =>
    if rejectInternalIncoming ∧ 0 < dot n0_effective u0 then none
    else
      let sigma_sp := fs.sigma_s * fs.mu
      let sigma_tp := sigma_sp + fs.sigma_a
      let zv? : Option ℝ :=
        match zvMode with
        | .EFrisvadEtAlZv =>
            if sigma_tp = 0 ∨ sigma_sp = 0 then none
            else
              let D := 1 / (3 * sigma_tp)
              let alpha_p := sigma_sp / sigma_tp
              let d_e := 2.131 * D / Real.sqrt alpha_p
              let A := ext.dEon_A fs.m_eta
              some (2 * A * d_e)
        | .EBetterDipoleZv =>
            if sigma_tp = 0 then none
            else
              let D := (2 * fs.sigma_a + sigma_sp) / (3 * (sigma_tp * sigma_tp))
              let A := ext.dEon_A fs.m_eta
              some (4 * A * D)
        | .EClassicDiffusion =>
            if sigma_tp = 0 then none
            else
              let Fdr := ext.fresnelDiffuseReflectance (1 / fs.m_eta)
              let A := (1 + Fdr) / (1 - Fdr)
              let D := 1 / (3 * sigma_tp)
              some (4 * A * D)
      match zv? with
      | none => none
      | some zv =>
          some (u0 - (2 * dot n0_effective u0) • n0_effective,
                R - zv • n0_effective, n0_effective)

/-- FwdScat::getTentativeIndexMatchedVirtualSourceDisp with a null
realSourceRelativeWeight pointer: only R_virt is requested.  The entry
direction is not sensible yet, so the source passes a NaN vector (modelled
by the junk value 0/0), rejectInternalIncoming = false and the only
u0-independent height model EClassicDiffusion. -/
def getTentativeIndexMatchedVirtualSourceDisp {σ : Type} (ext : Externals σ)
    (fs : FwdScat) (n0 nL uL R : Vec3) (s : ℝ)
    (tangentMode : TangentPlaneMode) : Option Vec3 :=
  let u0bogus : Vec3 := ⟨0 / 0, 0 / 0, 0 / 0⟩
  match getVirtualDipoleSource ext fs n0 u0bogus nL uL R s false tangentMode
      .EClassicDiffusion with
  | none => none
  | some (_, R_virt, _) => some R_virt

/-- FwdScat::getTentativeIndexMatchedVirtualSourceDisp with the
realSourceRelativeWeight requested: additionally returns the blending
weight ratio/(ratio + 1).  The isinf clamp of the source has no
counterpart over the reals (exp never returns an infinity), and the
MTS_FWDSCAT_GIVE_REAL_AND_VIRTUAL_SOURCE_EQUAL_SAMPLING_WEIGHT macro is
false in the source, so the computed weight is returned as is.  Returns
(R_virt, n0_effective, realSourceWeight). -/
def getTentativeIndexMatchedVirtualSourceDispW {σ : Type} (ext : Externals σ)
    (fs : FwdScat) (n0 nL uL R : Vec3) (s : ℝ)
    (tangentMode : TangentPlaneMode) : Option (Vec3 × Vec3 × ℝ) :=
  let u0bogus : Vec3 := ⟨0 / 0, 0 / 0, 0 / 0⟩
  match getVirtualDipoleSource ext fs n0 u0bogus nL uL R s false tangentMode
      .EClassicDiffusion with
  | none => none
  | some (_, R_virt, n0_effective) =>
      let v := calcValues fs s
      let q := Real.exp (v.E * dot (R - R_virt) uL
              - v.F * (R.lengthSq - R_virt.lengthSq))
      some (R_virt, n0_effective, q / (q + 1))

/-- FwdScat::evalMonopole.  The CancellationCheck calls are observability
only (spec: they must never change the returned value) and the debug-only
non-finite guard is vacuous over the reals; both are dropped. -/
def evalMonopole {σ : Type} (ext : Externals σ) (fs : FwdScat)
    (u0 uL R : Vec3) (length : ℝ) : ℝ :=
  let v := calcValues fs length
  let H : Vec3 := v.E • R - v.D • uL
  let lHl := H.length
  let Hnorm : Vec3 := (1 / lHl) • H
  let lHlreg := if lHl > 1 / ext.directionMinMu then 1 / ext.directionMinMu else lHl
  let cosTheta := clamp (dot u0 Hnorm) (-1) 1
  let N := absorptionAndNormalizationConstant fs length
  N * Real.exp (-v.C + v.E * dot R uL + lHlreg * cosTheta - v.F * R.lengthSq)

/-- FwdScat::evalPlaneSource (effective-BRDF path only).  The non-finite
guard of the source is vacuous over the reals. -/
def evalPlaneSource (fs : FwdScat) (u0 uL n : Vec3) (Rz length : ℝ) : ℝ :=
  let v := calcValues fs length
  let u0z := dot u0 n
  let uLz := dot uL n
  absorptionAndNormalizationConstant fs length * Real.pi / v.F *
    Real.exp (v.E * v.E / 4 / v.F * (2 + 2 * dot u0 uL - (u0z + uLz) * (u0z + uLz))
      - v.D * dot u0 uL - v.C + v.E * Rz * (u0z + uLz) - v.F * Rz * Rz)

/-- FwdScat::evalDipole with reciprocal = false.  The recursive call of the
reciprocal branch always has reciprocal = false, so the source function is
split into this non-reciprocal body and the wrapper evalDipole below; the
two bodies are otherwise identical transcriptions.  The nL.isFinite()
conjunct is vacuous over the reals, and the
MTS_FWDSCAT_DIPOLE_REJECT_INCOMING_WRT_TRUE_SURFACE_NORMAL macro is true in
the source, so the dot(u0_external, n0) >= 0 rejection is always active. -/
def evalDipoleNR {σ : Type} (ext : Externals σ) (fs : FwdScat)
    (n0 u0_external nL uL_external R : Vec3) (length : ℝ)
    (rejectInternalIncoming : Bool) (tangentMode : TangentPlaneMode)
    (zvMode : ZvMode) (useEffectiveBRDF : Bool) (dipoleMode : DipoleMode) : ℝ :=
  if dot uL_external nL ≤ 0 then 0
  else if 0 ≤ dot u0_external n0 then 0
  else
    let rf0 := ext.refract (-u0_external) n0 fs.m_eta
    let u0 := rf0.1
    let F0 := rf0.2
    let rfL := ext.refract uL_external nL fs.m_eta
    let uL := -rfL.1
    let FL := rfL.2
    let fresnelTransmittance := (1 - F0) * (1 - FL)
    if u0 = 0 ∨ uL = 0 then 0
    else
      match getVirtualDipoleSource ext fs n0 u0 nL uL R length
          rejectInternalIncoming tangentMode zvMode with
      | none => 0
      | some (u0_virt, R_virt, _) =>
        if useEffectiveBRDF then
          let Rv_z := dot R_virt nL
          fresnelTransmittance *
            (evalPlaneSource fs u0 uL nL 0 length
              - evalPlaneSource fs u0_virt uL nL Rv_z length)
        else
          let real := if dipoleMode.hasReal then evalMonopole ext fs u0 uL R length else 0
          let virt := if dipoleMode.hasVirt then evalMonopole ext fs u0_virt uL R_virt length else 0
          let transport :=
            match dipoleMode with
            | .ERealAndVirt => real - virt
            | .EReal => real
            | .EVirt => virt
          transport * fresnelTransmittance

/-- FwdScat::evalDipole.  Identical to evalDipoleNR except that when
reciprocal is requested the time-reversed configuration (entry and exit
roles swapped, internal directions negated, R negated) is evaluated without
reciprocity and the transmittance-weighted average is returned, exactly as
in the source. -/
def evalDipole {σ : Type} (ext : Externals σ) (fs : FwdScat)
    (n0 u0_external nL uL_external R : Vec3) (length : ℝ)
    (rejectInternalIncoming reciprocal : Bool) (tangentMode : TangentPlaneMode)
    (zvMode : ZvMode) (useEffectiveBRDF : Bool) (dipoleMode : DipoleMode) : ℝ :=
  if dot uL_external nL ≤ 0 then 0
  else if 0 ≤ dot u0_external n0 then 0
  else
    let rf0 := ext.refract (-u0_external) n0 fs.m_eta
    let u0 := rf0.1
    let F0 := rf0.2
    let rfL := ext.refract uL_external nL fs.m_eta
    let uL := -rfL.1
    let FL := rfL.2
    let fresnelTransmittance := (1 - F0) * (1 - FL)
    if u0 = 0 ∨ uL = 0 then 0
    else
      match getVirtualDipoleSource ext fs n0 u0 nL uL R length
          rejectInternalIncoming tangentMode zvMode with
      | none => 0
      | some (u0_virt, R_virt, _) =>
        if useEffectiveBRDF then
          let Rv_z := dot R_virt nL
          fresnelTransmittance *
            (evalPlaneSource fs u0 uL nL 0 length
              - evalPlaneSource fs u0_virt uL nL Rv_z length)
        else
          let real := if dipoleMode.hasReal then evalMonopole ext fs u0 uL R length else 0
          let virt := if dipoleMode.hasVirt then evalMonopole ext fs u0_virt uL R_virt length else 0
          let transport :=
            match dipoleMode with
            | .ERealAndVirt => real - virt
            | .EReal => real
            | .EVirt => virt
          if reciprocal then
            let transportRev := evalDipoleNR ext fs nL (-uL) n0 (-u0) (-R) length
              rejectInternalIncoming tangentMode zvMode useEffectiveBRDF dipoleMode
            0.5 * (transport + transportRev) * fresnelTransmittance
          else
            transport * fresnelTransmittance

/-- Strategy weight of the short length limit (source lengthSample_w1). -/
def lengthSample_w1 : ℝ := 0.5

/-- Strategy weight of the long length limit (source lengthSample_w2). -/
def lengthSample_w2 : ℝ := 0.5

/-- Strategy weight of the absorption strategy (source lengthSample_w3). -/
def lengthSample_w3 : ℝ := 0.0

/-- FwdScat::sampleLengthAbsorption: exponential sampling on sigma_a alone.
Returns (pdf, s, new sampler state); pdf 0 when sigma_a = 0 (disabled). -/
def sampleLengthAbsorption {σ : Type} (ext : Externals σ) (fs : FwdScat)
    (s0 : ℝ) (st : σ) : ℝ × ℝ × σ :=
  if fs.sigma_a = 0 then (0, s0, st)
  else
    let u := ext.next1D st
    let s := -Real.log u.1 / fs.sigma_a
    (fs.sigma_a * Real.exp (-fs.sigma_a * s), s, u.2)

/-- FwdScat::pdfLengthAbsorption. -/
def pdfLengthAbsorption (fs : FwdScat) (s : ℝ) : ℝ :=
  if fs.sigma_a = 0 then 0
  else fs.sigma_a * Real.exp (-fs.sigma_a * s)

/-- The do-while retry loop around the truncated-normal draw of the
short-limit samplers (draw again while the sample is exactly 0), modelled
with explicit fuel from the Externals record; (0, state) on fuel
exhaustion, which the theorems treat like any draw of 0. -/
def drawPosTruncnorm {σ : Type} (ext : Externals σ) :
    ℕ → ℝ → ℝ → σ → ℝ × σ
  | 0, _, _, st => (0, st)
  | n + 1, mean, stddev, st =>
      let d := ext.truncnormSample0Inf mean stddev st
      if d.1 = 0 then drawPosTruncnorm ext n mean stddev d.2 else d

/-- The mean/stddev fit of FwdScat::implLengthShortLimitKnownU0 in the
transformed variable t = (ps)^(-3): the Maple-generated cubic-root
expressions (general form for r > 1e-4, short-r expansion otherwise), the
fallback mean = 1/r^3 when the fitted mean is nonpositive (the
non-finiteness escape of the source has no real-arithmetic counterpart;
over the reals sqrt and cbrt of any argument are total), the two stddev
regimes, the safety factor 2, and the stddev = mean fallback when the
fitted variance is nonpositive. -/
def shortLimitKnownU0Fit (fs : FwdScat) (R u0 uL : Vec3) : ℝ × ℝ :=
  let p := 0.5 * fs.sigma_s * fs.mu
  let lRl := R.length
  let r := lRl * p
  let cosTheta0L := clamp (dot R u0 / lRl) (-1) 1 + clamp (dot R uL / lRl) (-1) 1
  let u0dotuL := dot u0 uL
  let mean0 : ℝ :=
    if r > 1e-4 then
      let t1 := 1 / r
      let t2 := cosTheta0L * cosTheta0L
      let t3 := t2 * cosTheta0L
      let t5 := Real.sqrt 3
      let t8 := u0dotuL * u0dotuL
      let t18 := r * r
      let t25 := -108 * r * u0dotuL * cosTheta0L + 96 * t3 * r
          - 216 * r * cosTheta0L - 4 * t2 * t8 - 16 * t2 * u0dotuL
          + 4 * t8 * u0dotuL + 243 * t18 - 16 * t2 + 24 * t8
          + 48 * u0dotuL + 32
      let t26 := Real.sqrt t25
      let t34 := cbrt (12 * t26 * t5 - 72 * cosTheta0L * u0dotuL
          + 324 * r + 64 * t3 - 144 * cosTheta0L)
      let t35 := t34 * t1
      let t42 := 1 / t34 * t1 * (-4 * t2 + 3 * u0dotuL + 6)
      let t44 := cosTheta0L * t1
      let t46 := t35 / 18 + 2 / 9 * (t44 - t42)
      let t47 := t46 * t46
      1 / 9 / t18 * (6 * cosTheta0L * t47 * r - u0dotuL * t46
          - t35 / 9 + 4 / 9 * (t42 - t44) + 1)
    else
      let t1 := Real.sqrt 3
      let t3 := (u0dotuL + 2) * (u0dotuL + 2)
      let t4 := cosTheta0L * cosTheta0L
      let t7 := Real.sqrt (t3 * (-t4 + u0dotuL + 2))
      let t14 := 24 * t1 * t7 - 72 * cosTheta0L * (-8 / 9 * t4 + u0dotuL + 2)
      let t15 := cbrt t14
      let t16 := t15 * t15
      let t28 := -8 / 3 * t4 + u0dotuL + 2
      let t35 := t4 * t4
      let t41 := u0dotuL * u0dotuL
      let t48 := r * r
      ((48 * t4 * cosTheta0L + (-36 * u0dotuL - 72) * cosTheta0L) * t16
          + 36 * (-4 / 3 * t4 + u0dotuL + 2) * t28 * t15
          - 72 * t1 * t28 * t7
          + cosTheta0L * (768 * t35 + (-1152 * u0dotuL - 2304) * t4
              + t15 * t14 + 360 * t41 + 1440 * u0dotuL + 1440))
        / (t16 * t48 * r * 486)
  let mean := if mean0 ≤ 0 then 1 / (r * r * r) else mean0
  let mean113 := mean ^ ((11 : ℝ) / 3)
  let mean53 := mean ^ ((5 : ℝ) / 3)
  let mean73 := mean ^ ((7 : ℝ) / 3)
  let mean2 := mean * mean
  let realStddev : ℝ :=
    if r < 1e-4 then
      Real.sqrt ((-54 * r * cosTheta0L + 12 * u0dotuL * u0dotuL + 48 * u0dotuL + 48)
            * mean ^ ((8 : ℝ) / 3) / 27
          + (18 * u0dotuL + 36) * mean73 / 27
          + (8 * u0dotuL * u0dotuL * u0dotuL + 48 * u0dotuL * u0dotuL
              + (-72 * r * cosTheta0L + 96) * u0dotuL - 144 * r * cosTheta0L + 64)
            * mean * mean * mean / 27 + mean * mean)
    else
      Real.sqrt (3 * mean113
          / (3 * mean53 + 6 * mean73 * r * cosTheta0L - (2 * u0dotuL + 4) * mean2))
  let stddevSafetyFactor : ℝ := 2
  let stddev0 := stddevSafetyFactor * realStddev
  let stddev := if stddev0 ≤ 0 then mean else stddev0
  (mean, stddev)

/-- FwdScat::implLengthShortLimitKnownU0.  The sampler argument becomes an
optional sampler state (some = sample mode, none = pdf-only mode as with
the C++ NULL sampler); s0 is the incoming value of the by-reference s.
Returns (s, pdf, final optional state). -/
def implLengthShortLimitKnownU0 {σ : Type} (ext : Externals σ) (fs : FwdScat)
    (R u0 uL : Vec3) (smp : Option σ) (s0 : ℝ) : ℝ × ℝ × Option σ :=
  let p := 0.5 * fs.sigma_s * fs.mu
  let lRl := R.length
  let r := lRl * p
  if r = 0 then
    match smp with
    | some st => (0, 0, some st)
    | none => (s0, 0, none)
  else
    let ms := shortLimitKnownU0Fit fs R u0 uL
    match smp with
    | some st =>
        let d := drawPosTruncnorm ext ext.retryFuel ms.1 ms.2 st
        let t := d.1
        let ps := t ^ (-(1 / 3 : ℝ))
        let s := ps / p
        (s, ext.truncnormPdf0Inf ms.1 ms.2 t * 3 / (ps * ps * ps * ps) * p, some d.2)
    | none =>
        let ps := p * s0
        let t := 1 / (ps * ps * ps)
        (s0, ext.truncnormPdf0Inf ms.1 ms.2 t * 3 / (ps * ps * ps * ps) * p, none)

/-- The fit part of FwdScat::implLengthShortLimitMargOverU0_internal: the
do-while(false) block computing (uniformBackupWeight, t_mean, t_stddev) in
the transformed variable t = (ps)^(-5/2), including the safety-factor
adjusted mean/variance; -1 stands for the uninitialized C++ locals exactly
where the source leaves them unset.  Non-finiteness escapes are vacuous
over the reals; the tmp2 > 0 guard of the source is kept. -/
def shortLimitMargOverU0Fit (fs : FwdScat) (R uL : Vec3) (safetyFac : ℝ) :
    ℝ × ℝ × ℝ :=
  let p := 0.5 * fs.sigma_s * fs.mu
  let lRl := R.length
  let r := lRl * p
  let r2 := r * r
  let cosTheta := clamp (dot R uL / lRl) (-1) 1
  let D := (25 * cosTheta * (cosTheta + 1) - 25 - 30 * r2) / 225
  if D ≤ 0 then (1, -1, -1)
  else
    let t_mean25 := ((cosTheta + 1) / 3 + Real.sqrt D) / r
    if t_mean25 ≤ 0 then (1, -1, -1)
    else
      let t_mean := t_mean25 * t_mean25 * Real.sqrt t_mean25
      let t_mean45 := t_mean25 * t_mean25
      let t_mean85 := t_mean45 * t_mean45
      let t_var := 125 * t_mean85 / (135 * r2 * t_mean45
          + 90 * r * (cosTheta + 1) * t_mean25
          - 54 * r2 - 45 * (cosTheta + 2))
      if ¬(t_var > 0) then (1, t_mean, -1)
      else if safetyFac = 1 then (1e-2, t_mean, Real.sqrt t_var)
      else
        let t_mean2 := t_mean * t_mean
        let t_mean4 := t_mean2 * t_mean2
        let tmp2 := 1764 * ((safetyFac - 7 / 6) * t_var) * ((safetyFac - 7 / 6) * t_var)
            + (2450 - 2800 * safetyFac) * t_var * t_mean2
            + 625 * t_mean4
        let tmp := if tmp2 > 0 then Real.sqrt tmp2 else 0
        let newMean := t_mean
            * (475 * t_mean2 - 868 * safetyFac * t_var + 931 * t_var - 19 * tmp)
            / (350 * t_mean2 + (686 - 588 * safetyFac) * t_var - 14 * tmp)
        let newVar := t_var * (7 / 2 - 3 * safetyFac) + 25 / 14 * t_mean2 - tmp / 14
        if ¬(newVar > 0) then (0.3, t_mean, Real.sqrt t_var)
        else (1e-2, newMean, Real.sqrt newVar)

/-- FwdScat::implLengthShortLimitMargOverU0_internal.  Works in p = 1 and
transforms back at the end; meanTailCutoff is the double-precision value
-1e7 of the source.  Returns (s, pdf, final optional state). -/
def implLengthShortLimitMargOverU0_internal {σ : Type} (ext : Externals σ)
    (fs : FwdScat) (R uL : Vec3) (smp : Option σ) (s0 : ℝ) (safetyFac : ℝ) :
    ℝ × ℝ × Option σ :=
  let p := 0.5 * fs.sigma_s * fs.mu
  let lRl := R.length
  let r := lRl * p
  if r = 0 then
    match smp with
    | some st => (0, 0, some st)
    | none => (s0, 0, none)
  else
    let fit := shortLimitMargOverU0Fit fs R uL safetyFac
    let t_mean := fit.2.1
    let t_stddev := fit.2.2
    let meanTailCutoff : ℝ := -1e7
    let uniformBackupWeight :=
      if t_mean / t_stddev < meanTailCutoff then 1 else fit.1
    let uniformSpan : ℝ := 2
    let step : ℝ × ℝ × ℝ × Option σ :=
      match smp with
      | some st =>
          if uniformBackupWeight = 1 then
            let u := ext.next1D st
            let ps := uniformSpan * u.1
            let t := ps ^ (-(5 / 2 : ℝ))
            (ps, t, ps / p, some u.2)
          else
            let d0 := ext.next1D st
            if d0.1 < uniformBackupWeight then
              let u := ext.next1D d0.2
              let ps := uniformSpan * u.1
              let t := ps ^ (-(5 / 2 : ℝ))
              (ps, t, ps / p, some u.2)
            else
              let d := drawPosTruncnorm ext ext.retryFuel t_mean t_stddev d0.2
              let t := d.1
              let ps := t ^ (-(2 / 5 : ℝ))
              (ps, t, ps / p, some d.2)
      | none =>
          let ps := s0 * p
          let t := ps ^ (-(5 / 2 : ℝ))
          (ps, t, s0, none)
    let ps := step.1
    let t := step.2.1
    let s := step.2.2.1
    let tPdf := if uniformBackupWeight = 1 then 0
      else ext.truncnormPdf0Inf t_mean t_stddev t
    let unifPdf := if ps < uniformSpan then 1 / uniformSpan else 0
    let psPdf := uniformBackupWeight * unifPdf
        + (1 - uniformBackupWeight) * (tPdf * 5 / 2 * ps ^ (-(7 / 2 : ℝ)))
    (s, psPdf * p, step.2.2.2)

/-- FwdScat::implLengthShortLimitMargOverU0: 70/30 blend of the original
fit and the variance-inflated safety fit (inflation factor 3), sampling one
of the two and evaluating the pdf of the other at the sampled length. -/
def implLengthShortLimitMargOverU0 {σ : Type} (ext : Externals σ)
    (fs : FwdScat) (R uL : Vec3) (smp : Option σ) (s0 : ℝ) :
    ℝ × ℝ × Option σ :=
  let safetyFac : ℝ := 3
  let safetyWeight : ℝ := 0.3
  match smp with
  | some st =>
      let u := ext.next1D st
      if u.1 > safetyWeight then
        let rS := implLengthShortLimitMargOverU0_internal ext fs R uL (some u.2) s0 safetyFac
        let s := rS.1
        let pdfSafety := rS.2.1
        let rO := implLengthShortLimitMargOverU0_internal ext fs R uL none s 1
        let pdfOrig := rO.2.1
        (s, safetyWeight * pdfSafety + (1 - safetyWeight) * pdfOrig, rS.2.2)
      else
        let rO := implLengthShortLimitMargOverU0_internal ext fs R uL (some u.2) s0 1
        let s := rO.1
        let pdfOrig := rO.2.1
        let rS := implLengthShortLimitMargOverU0_internal ext fs R uL none s safetyFac
        let pdfSafety := rS.2.1
        (s, safetyWeight * pdfSafety + (1 - safetyWeight) * pdfOrig, rO.2.2)
  | none =>
      let rO := implLengthShortLimitMargOverU0_internal ext fs R uL none s0 1
      let rS := implLengthShortLimitMargOverU0_internal ext fs R uL none s0 safetyFac
      (s0, safetyWeight * rS.2.1 + (1 - safetyWeight) * rO.2.1, none)

/-- FwdScat::implLengthShortLimit: dispatch on whether the entry direction
is known (C++ NULL pointer becomes none). -/
def implLengthShortLimit {σ : Type} (ext : Externals σ) (fs : FwdScat)
    (R : Vec3) (u0 : Option Vec3) (uL : Vec3) (smp : Option σ) (s0 : ℝ) :
    ℝ × ℝ × Option σ :=
  match u0 with
  | none => implLengthShortLimitMargOverU0 ext fs R uL smp s0
  | some u0v => implLengthShortLimitKnownU0 ext fs R u0v uL smp s0

/-- FwdScat::sampleLengthShortLimit: sample mode of implLengthShortLimit.
Returns (pdf, s, new state). -/
def sampleLengthShortLimit {σ : Type} (ext : Externals σ) (fs : FwdScat)
    (R : Vec3) (u0 : Option Vec3) (uL : Vec3) (s0 : ℝ) (st : σ) : ℝ × ℝ × σ :=
  let r := implLengthShortLimit ext fs R u0 uL (some st) s0
  (r.2.1, r.1, r.2.2.getD st)

/-- FwdScat::pdfLengthShortLimit: pdf-only mode of implLengthShortLimit. -/
def pdfLengthShortLimit {σ : Type} (ext : Externals σ) (fs : FwdScat)
    (R : Vec3) (u0 : Option Vec3) (uL : Vec3) (s : ℝ) : ℝ :=
  (implLengthShortLimit ext fs R u0 uL none s).2.1

/-- The closed-form CDF (in ps = p s) of FwdScat::sampleLengthLongLimit:
complementary-error-function sums and differences, with the asymptotic
series substituted when the erf argument exceeds 3 in magnitude, clamped to
[0, 1] as in the source (the out-of-range warning is diagnostics only). -/
def cdfLongLimit {σ : Type} (ext : Externals σ) (sA sB C : ℝ) (ps : ℝ) : ℝ :=
  let erfDiffArg := (sA * ps + sB) / Real.sqrt ps
  let erfSumArg := (sA * ps - sB) / Real.sqrt ps
  let erfDiff :=
    if erfDiffArg > 3 then
      let x := erfDiffArg
      let x2 := x * x
      let x3 := x2 * x
      let x5 := x3 * x2
      (1 / x - 0.5 / x3 + 0.75 / x5) * Real.exp (4 * sA * sB - x2) / Real.sqrt Real.pi
    else C * (1 - ext.erf erfDiffArg)
  let erfSum :=
    if erfSumArg < -3 then
      let x := erfSumArg
      let x2 := x * x
      let x3 := x2 * x
      let x5 := x3 * x2
      (-1 / x + 0.5 / x3 - 0.75 / x5) / Real.exp x2 / Real.sqrt Real.pi
    else 1 + ext.erf erfSumArg
  clamp (0.5 * (erfDiff + erfSum)) 0 1

/-- The target function whose root the long-limit sampler brackets:
cdf(ps) - u for the drawn uniform u. -/
def longLimitTarget {σ : Type} (ext : Externals σ) (sA sB C u : ℝ) : ℝ → ℝ :=
  fun ps => cdfLongLimit ext sA sB C ps - u

/-- The geometric bracket-expansion loop of FwdScat::sampleLengthLongLimit
(while target(hi) < 0 and hi < cap, hi := 3 hi), written with explicit
fuel.  Fuel 9 is enough to replicate the unbounded source loop: the cap is
1e4 times the initial hi and 3^9 > 1e4, so the guard is provably false at
the value this returns (see the termination theorem), which makes the
fuelled recursion extensionally equal to the C++ while loop. -/
def expandHi (target : ℝ → ℝ) (cap : ℝ) : ℕ → ℝ → ℝ
  | 0, hi => hi
  | n + 1, hi =>
      if target hi < 0 ∧ hi < cap then expandHi target cap n (3 * hi) else hi

/-- FwdScat::pdfLengthLongLimit.  The non-finiteness escape of the source
(returning 0 for an overflowed quotient) is vacuous over the reals;
math::fastexp is exp. -/
def pdfLengthLongLimit (fs : FwdScat) (R uL : Vec3) (s : ℝ) : ℝ :=
  let p := 0.5 * fs.sigma_s * fs.mu
  if p = 0 then 0
  else
    let s_p1 := s * p
    let R_p1 := p • R
    let R2minusRdotUL_p1 := R_p1.lengthSq - dot R_p1 uL
    let beta := 3 / 2 * R2minusRdotUL_p1
    if beta ≤ 0 then pdfLengthAbsorption fs s
    else
      let a_p1 := fs.sigma_a / p
      let pdf_p1 := Real.sqrt (beta / Real.pi) / (s_p1 * Real.sqrt s_p1)
          * Real.exp (-beta / s_p1 - a_p1 * s_p1 + 2 * Real.sqrt (beta * a_p1))
      pdf_p1 * p

/-- FwdScat::sampleLengthLongLimit: inverts the closed-form CDF by a
bracketed root search.  The bracket is [0, 1000/A], expanded geometrically
by 3 while the root is not enclosed up to 1e4 times the initial hi; the
abstract toms748 solver receives the iteration cap 1000 and returns none
on an exception or non-convergence, which (like every bracketing failure)
yields pdf 0.  Checks isfinite(target(lo)), isfinite(target(hi)) and
isfinite(s) are vacuous over the reals and dropped; the remaining guards of
the source are kept verbatim.  Falls back to the absorption sampler when
beta <= 0.  Returns (pdf, s, new state). -/
def sampleLengthLongLimit {σ : Type} (ext : Externals σ) (fs : FwdScat)
    (R uL : Vec3) (s0 : ℝ) (st : σ) : ℝ × ℝ × σ :=
  let p := 0.5 * fs.sigma_s * fs.mu
  if p = 0 then (0, s0, st)
  else
    let R_p1 := p • R
    let R2minusRdotUL_p1 := R_p1.lengthSq - dot R_p1 uL
    let beta := 3 / 2 * R2minusRdotUL_p1
    if beta ≤ 0 then sampleLengthAbsorption ext fs s0 st
    else
      let B := beta
      let A := fs.sigma_a / p
      let sA := Real.sqrt A
      let sB := Real.sqrt B
      let C := Real.exp (4 * sA * sB)
      let d := ext.next1D st
      let u := d.1
      let target := longLimitTarget ext sA sB C u
      let lo : ℝ := 0
      if target lo > 0 then (0, s0, d.2)
      else
        let hi := expandHi target (1e4 * (1000 / A)) 9 (1000 / A)
        if target hi < 0 then (0, s0, d.2)
        else
          match ext.toms748 target lo hi 1000 with
          | none => (0, s0, d.2)
          | some sol =>
              let s_p1 := 0.5 * (sol.1 + sol.2)
              let s := s_p1 / p
              (pdfLengthLongLimit fs R uL s, s, d.2)

/-- FwdScat::sampleLengthDipole.  One uniform draw picks the strategy by
cumulative weight, an independent 50/50 draw picks whether the real or the
virtual displacement feeds the long-limit strategy, and the returned
importance weight is the reciprocal of the balance-heuristic mixture, with
the long-limit pdf averaged over both displacements.  The C++ by-reference
s is modelled by the incoming value s0 and the returned s.  Returns
(weight, s, new state); 0 weight on any degenerate failure. -/
def sampleLengthDipole {σ : Type} (ext : Externals σ) (fs : FwdScat)
    (uL nL R : Vec3) (u0 : Option Vec3) (n0 : Vec3)
    (tangentMode : TangentPlaneMode) (s0 : ℝ) (st : σ) : ℝ × ℝ × σ :=
  match getTentativeIndexMatchedVirtualSourceDisp ext fs n0 nL uL R (0 / 0)
      tangentMode with
  | none => (0, s0, st)
  | some R_virt =>
    let c := ext.next1D st
    let Reff := if c.1 < 0.5 then (R, R_virt) else (R_virt, R)
    let R_effective := Reff.1
    let R_other := Reff.2
    let d := ext.next1D c.2
    let u := d.1
    let step : Option (ℝ × ℝ × ℝ × ℝ × σ) :=
      if u < lengthSample_w1 then
        let r1 := sampleLengthShortLimit ext fs R u0 uL s0 d.2
        if r1.1 = 0 then none else some (r1.1, -1, -1, r1.2.1, r1.2.2)
      else if u < lengthSample_w1 + lengthSample_w2 then
        let r2 := sampleLengthLongLimit ext fs R_effective uL s0 d.2
        if r2.1 = 0 then none else some (-1, r2.1, -1, r2.2.1, r2.2.2)
      else if u < lengthSample_w1 + lengthSample_w2 + lengthSample_w3 then
        let r3 := sampleLengthAbsorption ext fs s0 d.2
        if r3.1 = 0 then none else some (-1, -1, r3.1, r3.2.1, r3.2.2)
      else some (-1, -1, -1, s0, d.2)
    match step with
    | none => (0, s0, d.2)
    | some q =>
      let s := q.2.2.2.1
      let p1 := if q.1 = -1 then
          (if lengthSample_w1 = 0 then 0 else pdfLengthShortLimit ext fs R u0 uL s)
        else q.1
      let p2a := if q.2.1 = -1 then
          (if lengthSample_w2 = 0 then 0 else pdfLengthLongLimit fs R_effective uL s)
        else q.2.1
      let p3 := if q.2.2.1 = -1 then
          (if lengthSample_w3 = 0 then 0 else pdfLengthAbsorption fs s)
        else q.2.2.1
      let p2 := if lengthSample_w2 ≠ 0 then
          0.5 * (p2a + pdfLengthLongLimit fs R_other uL s)
        else p2a
      (1 / (lengthSample_w1 * p1 + lengthSample_w2 * p2 + lengthSample_w3 * p3),
        s, q.2.2.2.2)

/-- FwdScat::pdfLengthDipole: recomputes the same balance-heuristic mixture
without sampling. -/
def pdfLengthDipole {σ : Type} (ext : Externals σ) (fs : FwdScat)
    (uL nL R : Vec3) (u0 : Option Vec3) (n0 : Vec3)
    (tangentMode : TangentPlaneMode) (s : ℝ) : ℝ :=
  match getTentativeIndexMatchedVirtualSourceDisp ext fs n0 nL uL R (0 / 0)
      tangentMode with
  | none => 0
  | some R_virt =>
    let p1 := if lengthSample_w1 = 0 then 0 else pdfLengthShortLimit ext fs R u0 uL s
    let p2 := if lengthSample_w2 = 0 then 0 else
        0.5 * (pdfLengthLongLimit fs R uL s + pdfLengthLongLimit fs R_virt uL s)
    let p3 := if lengthSample_w3 = 0 then 0 else pdfLengthAbsorption fs s
    lengthSample_w1 * p1 + lengthSample_w2 * p2 + lengthSample_w3 * p3

/-- The sqrt(A) of FwdScat::sampleLengthLongLimit (A = sigma_a / p). -/
def longLimitSA (fs : FwdScat) : ℝ :=
  Real.sqrt (fs.sigma_a / (0.5 * fs.sigma_s * fs.mu))

/-- The sqrt(B) of FwdScat::sampleLengthLongLimit (B = beta). -/
def longLimitSB (fs : FwdScat) (R uL : Vec3) : ℝ :=
  Real.sqrt (3 / 2 * (((0.5 * fs.sigma_s * fs.mu) • R).lengthSq
    - dot ((0.5 * fs.sigma_s * fs.mu) • R) uL))

/-- The initial bracket endpoint hi = 1000/A of
FwdScat::sampleLengthLongLimit. -/
def longLimitHi0 (fs : FwdScat) : ℝ :=
  1000 / (fs.sigma_a / (0.5 * fs.sigma_s * fs.mu))

/-- The concrete target function cdf(ps) - u of
FwdScat::sampleLengthLongLimit for the drawn uniform u. -/
def longLimitTheTarget {σ : Type} (ext : Externals σ) (fs : FwdScat)
    (R uL : Vec3) (u : ℝ) : ℝ → ℝ :=
  longLimitTarget ext (longLimitSA fs) (longLimitSB fs R uL)
    (Real.exp (4 * longLimitSA fs * longLimitSB fs R uL)) u

/-- The expanded upper bracket endpoint of FwdScat::sampleLengthLongLimit
after the geometric while loop. -/
def longLimitHiExpanded {σ : Type} (ext : Externals σ) (fs : FwdScat)
    (R uL : Vec3) (u : ℝ) : ℝ :=
  expandHi (longLimitTheTarget ext fs R uL u) (1e4 * longLimitHi0 fs) 9
    (longLimitHi0 fs)

/-- A concrete instantiation of the external collaborators used by the
closed witness and counterexample statements: the random source always
returns 0, the truncated normal always draws 1 with density 1, the solver
always fails, refraction is the eta = 1 identity (mitsuba refract returns
the negated input direction and zero Fresnel reflectance at matched
indices), and the Fresnel diffuse reflectance is 0. -/
def extW : Externals Unit :=
  ⟨fun st => (0, st), fun _ _ st => (1, st), fun _ _ _ => 1, fun _ => 0,
    fun _ _ _ _ => none, fun _ => 1, fun _ => 0, fun v _ _ => (-v, 0), 1, 1⟩

/-- Concrete medium for the witnesses: sigma_s = 2, sigma_a = 0, mu = 1,
eta = 1 (so p = 1). -/
def fsW : FwdScat := ⟨2, 0, 1, 1⟩

/-- Abbreviation of the real/virtual transport factor of evalDipole and
evalDipoleNR on the full-BSSRDF path, for stating reciprocity. -/
def dipoleTransport {σ : Type} (ext : Externals σ) (fs : FwdScat)
    (u0 uL R u0v Rv : Vec3) (len : ℝ) (dm : DipoleMode) : ℝ :=
  let real := if dm.hasReal then evalMonopole ext fs u0 uL R len else 0
  let virt := if dm.hasVirt then evalMonopole ext fs u0v uL Rv len else 0
  match dm with
  | .ERealAndVirt => real - virt
  | .EReal => real
  | .EVirt => virt

/-! ## Theorems -/

@[simp]
theorem Vec3.add_def (a b : Vec3) : a + b = ⟨a.x + b.x, a.y + b.y, a.z + b.z⟩ := rfl

@[simp]
theorem Vec3.sub_def (a b : Vec3) : a - b = ⟨a.x - b.x, a.y - b.y, a.z - b.z⟩ := rfl

@[simp]
theorem Vec3.neg_def (a : Vec3) : -a = ⟨-a.x, -a.y, -a.z⟩ := rfl

@[simp]
theorem Vec3.smul_def (c : ℝ) (a : Vec3) : c • a = ⟨c * a.x, c * a.y, c * a.z⟩ := rfl

@[simp]
theorem Vec3.zero_def : (0 : Vec3) = ⟨0, 0, 0⟩ := rfl

/-- C9.  The virtual dipole source construction does not read its length
argument: for any two length values and otherwise identical inputs the
result (success flag and all outputs) is identical.  This is what makes
the deliberate NaN length (0/0) passed by sampleLengthDipole and
pdfLengthDipole legitimate. -/
theorem getVirtualDipoleSource_ignores_length {σ : Type} (ext : Externals σ)
    (fs : FwdScat) (n0 u0 nL uL R : Vec3) (len1 len2 : ℝ)
    (rejectInternalIncoming : Bool) (tangentMode : TangentPlaneMode)
    (zvMode : ZvMode) :
    getVirtualDipoleSource ext fs n0 u0 nL uL R len1 rejectInternalIncoming
        tangentMode zvMode
      = getVirtualDipoleSource ext fs n0 u0 nL uL R len2 rejectInternalIncoming
        tangentMode zvMode := rfl

/-- C10.  Zero-displacement edge case of the ShortLimit length strategy:
when |R| = 0 both the known-entry-direction variant and the marginalized
variant return pdf 0 (cannot sample), and the sampling mode sets s = 0. -/
theorem shortLimit_zero_displacement {σ : Type} (ext : Externals σ)
    (fs : FwdScat) (R : Vec3) (u0 : Option Vec3) (uL : Vec3) (s0 s1 : ℝ)
    (st : σ) (hR : R.length = 0) :
    (sampleLengthShortLimit ext fs R u0 uL s0 st).1 = 0
      ∧ (sampleLengthShortLimit ext fs R u0 uL s0 st).2.1 = 0
      ∧ pdfLengthShortLimit ext fs R u0 uL s1 = 0 := by
  cases u0 with
  | some u0v =>
      simp [sampleLengthShortLimit, pdfLengthShortLimit, implLengthShortLimit,
        implLengthShortLimitKnownU0, hR]
  | none =>
      simp only [sampleLengthShortLimit, pdfLengthShortLimit,
        implLengthShortLimit, implLengthShortLimitMargOverU0,
        implLengthShortLimitMargOverU0_internal, hR, zero_mul, if_pos]
      split
      · norm_num
      · norm_num

/-- C10 witness at R = 0. -/
theorem shortLimit_zero_displacement_witness :
    (Vec3.length ⟨0, 0, 0⟩ = 0)
      ∧ ((sampleLengthShortLimit extW fsW ⟨0, 0, 0⟩ none ⟨0, 0, 1⟩ 5 ()).1 = 0
        ∧ (sampleLengthShortLimit extW fsW ⟨0, 0, 0⟩ none ⟨0, 0, 1⟩ 5 ()).2.1 = 0
        ∧ pdfLengthShortLimit extW fsW ⟨0, 0, 0⟩ none ⟨0, 0, 1⟩ 7 = 0) := by
  have h : Vec3.length ⟨0, 0, 0⟩ = 0 := by
    simp [Vec3.length, Vec3.lengthSq, dot]
  exact ⟨h, shortLimit_zero_displacement extW fsW ⟨0, 0, 0⟩ none ⟨0, 0, 1⟩ 5 7 () h⟩

@[simp]
theorem Vec3.neg_eq_zero (v : Vec3) : -v = 0 ↔ v = 0 := by
  simp [Vec3.neg_def, Vec3.zero_def, Vec3.ext_iff]

/-- C3.  Rejection postcondition of the evaluator: evalDipole returns
exactly 0 whenever the external entry direction does not point inward
through the true entry normal (dot(u0_external, n0) >= 0), and whenever
refracting either external direction is impossible (the refracted
direction is the zero vector, total internal reflection). -/
theorem evalDipole_rejects {σ : Type} (ext : Externals σ) (fs : FwdScat)
    (n0 u0e nL uLe R : Vec3) (len : ℝ) (rii recip : Bool)
    (tm : TangentPlaneMode) (zm : ZvMode) (brdf : Bool) (dm : DipoleMode) :
    (0 ≤ dot u0e n0 →
      evalDipole ext fs n0 u0e nL uLe R len rii recip tm zm brdf dm = 0)
    ∧ ((ext.refract (-u0e) n0 fs.m_eta).1 = 0 ∨ (ext.refract uLe nL fs.m_eta).1 = 0 →
      evalDipole ext fs n0 u0e nL uLe R len rii recip tm zm brdf dm = 0) := by
  constructor
  · intro h
    simp only [evalDipole]
    split_ifs with h1 h2 h3
    any_goals rfl
    all_goals exact absurd h h2
  · intro h
    simp only [evalDipole]
    split_ifs with h1 h2 h3
    any_goals rfl
    all_goals exact absurd (h.imp id (fun hh => by simp [hh])) h3

/-- C3 witness: a configuration with the entry direction along the normal
(dot = 1 >= 0) is rejected with value exactly 0, and under a refraction
model that always fails (returns the zero vector) the value is 0 as
well. -/
theorem evalDipole_rejects_witness :
    (0 ≤ dot ⟨0, 0, 1⟩ ⟨0, 0, 1⟩
      ∧ evalDipole extW fsW ⟨0, 0, 1⟩ ⟨0, 0, 1⟩ ⟨0, 1, 0⟩ ⟨0, 1, 0⟩ ⟨1, 0, 0⟩ 1
          false false .EFrisvadEtAl .EClassicDiffusion false .ERealAndVirt = 0)
    ∧ (((⟨fun st => (0, st), fun _ _ st => (1, st), fun _ _ _ => 1, fun _ => 0,
          fun _ _ _ _ => none, fun _ => 1, fun _ => 0, fun _ _ _ => (0, 0), 1, 1⟩ :
            Externals Unit).refract (-⟨0, 0, -1⟩) ⟨0, 0, 1⟩ fsW.m_eta).1 = 0
      ∧ evalDipole (⟨fun st => (0, st), fun _ _ st => (1, st), fun _ _ _ => 1,
            fun _ => 0, fun _ _ _ _ => none, fun _ => 1, fun _ => 0,
            fun _ _ _ => (0, 0), 1, 1⟩ : Externals Unit) fsW
          ⟨0, 0, 1⟩ ⟨0, 0, -1⟩ ⟨0, 1, 0⟩ ⟨0, 1, 0⟩ ⟨1, 0, 0⟩ 1
          false false .EFrisvadEtAl .EClassicDiffusion false .ERealAndVirt = 0) := by
  constructor
  · constructor
    · simp [dot]
    · exact (evalDipole_rejects extW fsW ⟨0, 0, 1⟩ ⟨0, 0, 1⟩ ⟨0, 1, 0⟩ ⟨0, 1, 0⟩
        ⟨1, 0, 0⟩ 1 false false .EFrisvadEtAl .EClassicDiffusion false .ERealAndVirt).1
        (by simp [dot])
  · constructor
    · rfl
    · exact (evalDipole_rejects _ fsW ⟨0, 0, 1⟩ ⟨0, 0, -1⟩ ⟨0, 1, 0⟩ ⟨0, 1, 0⟩
        ⟨1, 0, 0⟩ 1 false false .EFrisvadEtAl .EClassicDiffusion false .ERealAndVirt).2
        (Or.inl rfl)

/-- C7.  Real-source blending weight: whenever the tentative
index-matched virtual source construction succeeds with a weight
requested, the returned realSourceWeight equals ratio/(ratio + 1) with
ratio = exp(E dot(R - R_virt, uL) - F (|R|^2 - |R_virt|^2)) from the shape
parameters at the given s, and it lies in [0, 1].  (The clamp to 1 for an
infinite ratio is an IEEE artefact with no counterpart in exact real
arithmetic, where exp is finite.) -/
theorem getTentativeW_realSourceWeight {σ : Type} (ext : Externals σ)
    (fs : FwdScat) (n0 nL uL R : Vec3) (s : ℝ) (tm : TangentPlaneMode)
    (h : (getTentativeIndexMatchedVirtualSourceDispW ext fs n0 nL uL R s tm).isSome) :
    ((getTentativeIndexMatchedVirtualSourceDispW ext fs n0 nL uL R s tm).get h).2.2
        = Real.exp ((calcValues fs s).E
              * dot (R - ((getTentativeIndexMatchedVirtualSourceDispW ext fs n0 nL uL R s tm).get h).1) uL
            - (calcValues fs s).F
              * (R.lengthSq - ((getTentativeIndexMatchedVirtualSourceDispW ext fs n0 nL uL R s tm).get h).1.lengthSq))
          / (Real.exp ((calcValues fs s).E
              * dot (R - ((getTentativeIndexMatchedVirtualSourceDispW ext fs n0 nL uL R s tm).get h).1) uL
            - (calcValues fs s).F
              * (R.lengthSq - ((getTentativeIndexMatchedVirtualSourceDispW ext fs n0 nL uL R s tm).get h).1.lengthSq)) + 1)
      ∧ 0 ≤ ((getTentativeIndexMatchedVirtualSourceDispW ext fs n0 nL uL R s tm).get h).2.2
      ∧ ((getTentativeIndexMatchedVirtualSourceDispW ext fs n0 nL uL R s tm).get h).2.2 ≤ 1 := by
  cases hg : getVirtualDipoleSource ext fs n0 ⟨0 / 0, 0 / 0, 0 / 0⟩ nL uL R s false tm
      .EClassicDiffusion with
  | none =>
      exfalso
      rw [getTentativeIndexMatchedVirtualSourceDispW] at h
      simp only [hg] at h
      exact (Bool.false_ne_true h)
  | some tr =>
      obtain ⟨u0v, Rv, neff⟩ := tr
      have hq : (0:ℝ) < Real.exp ((calcValues fs s).E * dot (R - Rv) uL
          - (calcValues fs s).F * (R.lengthSq - Rv.lengthSq)) := Real.exp_pos _
      simp only [getTentativeIndexMatchedVirtualSourceDispW, hg, Option.get_some]
      refine ⟨?_, ?_, ?_⟩
      · trivial
      · positivity
      · rw [div_le_one (by linarith)]
        linarith

/-- C7 witness: a concrete configuration on which the construction
succeeds, with its weight in [0, 1]. -/
theorem getTentativeW_realSourceWeight_witness :
    ∃ out, getTentativeIndexMatchedVirtualSourceDispW extW fsW ⟨0, 0, 1⟩ ⟨0, 1, 0⟩
        ⟨0, 1, 0⟩ ⟨0, 0, 1⟩ 1 .EUnmodifiedIncoming = some out
      ∧ 0 ≤ out.2.2 ∧ out.2.2 ≤ 1 := by
  have h : (getTentativeIndexMatchedVirtualSourceDispW extW fsW ⟨0, 0, 1⟩ ⟨0, 1, 0⟩
      ⟨0, 1, 0⟩ ⟨0, 0, 1⟩ 1 .EUnmodifiedIncoming).isSome := by
    simp only [getTentativeIndexMatchedVirtualSourceDispW, getVirtualDipoleSource, extW, fsW]
    norm_num
  have hw := getTentativeW_realSourceWeight extW fsW ⟨0, 0, 1⟩ ⟨0, 1, 0⟩ ⟨0, 1, 0⟩
    ⟨0, 0, 1⟩ 1 .EUnmodifiedIncoming h
  exact ⟨_, (Option.some_get h).symm, hw.2.1, hw.2.2⟩

/-- C5 (code bug).  At Z = 1/1000 the series branch of ZoverExpMinOne
differs from the documented value Z/(exp(Z) - 1) by more than 9e-4: the
polynomial 1 + Z/2 + Z^2/12 - Z^4/720 has +1/2 as its linear coefficient
while the Taylor expansion of Z/(exp(Z) - 1) has -1/2 (the evaluated
polynomial is the expansion of Z/(1 - exp(-Z)), which exceeds the intended
function by exactly Z), so the branch is off by about Z instead of by the
truncation error of a Taylor series. -/
theorem ZoverExpMinOne_series_bug :
    |ZoverExpMinOne (1 / 1000) - (1 / 1000) / (Real.exp (1 / 1000) - 1)| > 9 / 10000 := by
  have habs : |(1 : ℝ)/1000| = 1/1000 := abs_of_pos (by norm_num)
  have hb := Real.exp_bound (x := (1 : ℝ)/1000) (by rw [habs]; norm_num) (n := 3) (by norm_num)
  rw [Finset.sum_range_succ, Finset.sum_range_succ, Finset.sum_range_one, habs] at hb
  norm_num [Nat.factorial] at hb
  obtain ⟨h1, h2⟩ := abs_le.mp hb
  set E := Real.exp ((1 : ℝ)/1000) with hE
  have hElo : (1 : ℝ)/1000 + 1/2000000 - 2/9000000000 ≤ E - 1 := by linarith
  have hEpos : (0 : ℝ) < E - 1 := by linarith
  have hv : ZoverExpMinOne (1 / 1000)
      = 1 + 0.5 * (1/1000) + 1 / 12 * (1/1000) * (1/1000)
        - 1 / 720 * (1/1000) * (1/1000) * (1/1000) * (1/1000) := by
    rw [ZoverExpMinOne, if_pos (by norm_num)]
  rw [hv]
  have hq : (1 : ℝ)/1000 / (E - 1)
      < (1 + 0.5 * (1/1000) + 1 / 12 * (1/1000) * (1/1000)
        - 1 / 720 * (1/1000) * (1/1000) * (1/1000) * (1/1000)) - 9 / 10000 := by
    rw [div_lt_iff hEpos]
    nlinarith [hElo]
  have hqpos : (0 : ℝ) < (1 : ℝ)/1000 / (E - 1) := by positivity
  rw [abs_of_pos (by linarith)]
  linarith

/-- For positive x the hyperbolic tangent lies below x: x cosh x exceeds
sinh x.  Used for the sign of the exact-branch denominators. -/
theorem mul_cosh_sub_sinh_pos {x : ℝ} (hx : 0 < x) :
    0 < x * Real.cosh x - Real.sinh x := by
  have hmono : StrictMonoOn (fun y => y * Real.cosh y - Real.sinh y) (Set.Ici 0) := by
    apply strictMonoOn_of_deriv_pos (convex_Ici 0)
    · exact ((continuous_id.mul Real.continuous_cosh).sub Real.continuous_sinh).continuousOn
    · intro y hy
      rw [interior_Ici, Set.mem_Ioi] at hy
      have hd : HasDerivAt (fun z => z * Real.cosh z - Real.sinh z)
          (1 * Real.cosh y + y * Real.sinh y - Real.cosh y) y :=
        ((hasDerivAt_id y).mul (Real.hasDerivAt_cosh y)).sub (Real.hasDerivAt_sinh y)
      rw [hd.deriv]
      have hsy : 0 < Real.sinh y := Real.sinh_pos_iff.mpr hy
      nlinarith
  have h := hmono Set.left_mem_Ici (Set.mem_Ici.mpr hx.le) hx
  simpa using h

/-- Positivity of the shared denominator of the exact-branch E and F:
ps - 1 + (ps + 1) exp(-2 ps) > 0 for ps > 0.  In hyperbolic form it is
2 exp(-ps) (ps cosh ps - sinh ps). -/
theorem denE_pos {ps : ℝ} (h : 0 < ps) :
    0 < ps - 1 + (ps + 1) * Real.exp (-2 * ps) := by
  have hc := mul_cosh_sub_sinh_pos h
  have hid : ps - 1 + (ps + 1) * Real.exp (-2 * ps)
      = 2 * Real.exp (-ps) * (ps * Real.cosh ps - Real.sinh ps) := by
    rw [Real.cosh_eq, Real.sinh_eq]
    have h2 : Real.exp (-2 * ps) = Real.exp (-ps) * Real.exp (-ps) := by
      rw [← Real.exp_add]; ring_nf
    rw [h2]
    have h3 : Real.exp (-ps) * Real.exp ps = 1 := by
      rw [← Real.exp_add]; simp
    nlinarith [h3]
  rw [hid]
  have := Real.exp_pos (-ps)
  nlinarith

/-- Positivity of the exact-branch D numerator:
1 - 4 ps exp(-2 ps) - exp(-2 ps)^2 > 0 for ps > 0 (equivalently
sinh(2 ps) > 2 ps). -/
theorem numD_pos {ps : ℝ} (h : 0 < ps) :
    0 < 1 - 4 * ps * Real.exp (-2 * ps) - Real.exp (-2 * ps) * Real.exp (-2 * ps) := by
  have hs : 2 * ps < Real.sinh (2 * ps) := Real.self_lt_sinh_iff.mpr (by linarith)
  rw [Real.sinh_eq] at hs
  have h2 : Real.exp (-2 * ps) = Real.exp (-(2 * ps)) := by ring_nf
  rw [h2]
  have h3 : Real.exp (-(2 * ps)) * Real.exp (2 * ps) = 1 := by
    rw [← Real.exp_add]; simp
  have h4 : 0 < Real.exp (2 * ps) := Real.exp_pos _
  have h5 : 0 < Real.exp (-(2 * ps)) := Real.exp_pos _
  nlinarith [h3, hs, h4, h5]

set_option maxHeartbeats 1600000 in
/-- Nonnegativity of every shape parameter on the series branch. -/
theorem calcValuesSeries_nonneg (fs : FwdScat) (s : ℝ)
    (hq : 0 < 0.5 * fs.mu * fs.sigma_s * s) (h1 : 0.5 * fs.mu * fs.sigma_s * s < 0.3)
    (hp : 0 < 0.5 * fs.mu * fs.sigma_s) :
    0 ≤ (calcValuesSeries fs s).C ∧ 0 ≤ (calcValuesSeries fs s).D
      ∧ 0 ≤ (calcValuesSeries fs s).E ∧ 0 ≤ (calcValuesSeries fs s).F
      ∧ 0 ≤ (calcValuesSeries fs s).Z := by
  simp only [calcValuesSeries]
  set q := 0.5 * fs.mu * fs.sigma_s * s with hqdef
  clear_value q
  have h2q : q ^ 2 < 0.09 := by nlinarith
  have hq0 : q ≠ 0 := hq.ne'
  have hDnum : (0:ℝ) ≤ 1.5 - 0.1 * q ^ 2 + 13 / 1050 * q ^ 4 - 11 / 7875 * q ^ 6 := by
    have h4 : (0:ℝ) ≤ q ^ 4 := by positivity
    have h6 : q ^ 6 < 1 := by nlinarith [sq_nonneg q, sq_nonneg (q ^ 2), sq_nonneg (q ^ 3)]
    linarith
  have hEnum : (0:ℝ) < 4.5 + 0.3 * q ^ 2 - 3 / 350 * q ^ 4 := by
    nlinarith [sq_nonneg q, sq_nonneg (q ^ 2)]
  have hFnum : (0:ℝ) < 4.5 + 1.8 * q ^ 2 - 3 / 350 * q ^ 4 := by
    nlinarith [sq_nonneg q, sq_nonneg (q ^ 2)]
  refine ⟨by positivity, ?_, ?_, ?_, ?_⟩
  · have hrw : 1.5 / q - 0.1 * q + 13 / 1050 * (q * q * q) - 11 / 7875 * (q * q * (q * q * q))
        = (1.5 - 0.1 * q ^ 2 + 13 / 1050 * q ^ 4 - 11 / 7875 * q ^ 6) / q := by
      field_simp
      ring
    rw [hrw]
    exact div_nonneg hDnum hq.le
  · have hrw : (4.5 / q + 0.3 * q - 3 / 350 * (q * q * q)) / q
        = (4.5 + 0.3 * q ^ 2 - 3 / 350 * q ^ 4) / q ^ 2 := by
      field_simp
      ring
    rw [hrw]
    exact mul_nonneg (div_nonneg hEnum.le (by positivity)) hp.le
  · have hrw : (4.5 / q + 1.8 * q - 3 / 350 * (q * q * q)) / (q * q)
        = (4.5 + 1.8 * q ^ 2 - 3 / 350 * q ^ 4) / q ^ 3 := by
      field_simp
      ring
    rw [hrw]
    exact mul_nonneg (div_nonneg hFnum.le (by positivity)) (by positivity)
  · have hrwE : (4.5 / q + 0.3 * q - 3 / 350 * (q * q * q)) / q
        = (4.5 + 0.3 * q ^ 2 - 3 / 350 * q ^ 4) / q ^ 2 := by
      field_simp
      ring
    have hrwF : (4.5 / q + 1.8 * q - 3 / 350 * (q * q * q)) / (q * q)
        = (4.5 + 1.8 * q ^ 2 - 3 / 350 * q ^ 4) / q ^ 3 := by
      field_simp
      ring
    have hrwD : 1.5 / q - 0.1 * q + 13 / 1050 * (q * q * q) - 11 / 7875 * (q * q * (q * q * q))
        = (1.5 - 0.1 * q ^ 2 + 13 / 1050 * q ^ 4 - 11 / 7875 * q ^ 6) / q := by
      field_simp
      ring
    have hq4 : (q:ℝ) ^ 4 ≠ 0 := pow_ne_zero 4 hq0
    rw [hrwE, hrwF, hrwD, sub_nonneg, le_div_iff (by positivity)]
    rw [show (2:ℝ) * ((1.5 - 0.1 * q ^ 2 + 13 / 1050 * q ^ 4 - 11 / 7875 * q ^ 6) / q)
          * ((4.5 + 1.8 * q ^ 2 - 3 / 350 * q ^ 4) / q ^ 3)
        = (2 * (1.5 - 0.1 * q ^ 2 + 13 / 1050 * q ^ 4 - 11 / 7875 * q ^ 6)
            * (4.5 + 1.8 * q ^ 2 - 3 / 350 * q ^ 4)) / q ^ 4 by
      rw [eq_div_iff hq4]
      field_simp
      ring]
    rw [show (4.5 + 0.3 * q ^ 2 - 3 / 350 * q ^ 4) / q ^ 2
          * ((4.5 + 0.3 * q ^ 2 - 3 / 350 * q ^ 4) / q ^ 2)
        = (4.5 + 0.3 * q ^ 2 - 3 / 350 * q ^ 4) ^ 2 / q ^ 4 by
      rw [eq_div_iff hq4]
      field_simp
      ring]
    apply div_le_div_of_nonneg_right ?_ (by positivity)
    · have h0 : (0:ℝ) ≤ q ^ 2 := sq_nonneg q
      have h9 : q ^ 2 ≤ 0.09 := h2q.le
      nlinarith [mul_nonneg h0 h0, mul_nonneg (mul_nonneg h0 h0) h0,
        mul_nonneg (mul_nonneg (mul_nonneg h0 h0) h0) h0,
        mul_nonneg (mul_nonneg (mul_nonneg (mul_nonneg h0 h0) h0) h0) h0,
        mul_nonneg h0 (sub_nonneg.mpr h9)]

/-- Nonnegativity of every shape parameter on the asymptotic branch. -/
theorem calcValuesAsympt_nonneg (fs : FwdScat) (s : ℝ)
    (h9 : 0.5 * fs.mu * fs.sigma_s * s > 9) (hp : 0 < 0.5 * fs.mu * fs.sigma_s) :
    0 ≤ (calcValuesAsympt fs s).C ∧ 0 ≤ (calcValuesAsympt fs s).D
      ∧ 0 ≤ (calcValuesAsympt fs s).E ∧ 0 ≤ (calcValuesAsympt fs s).F
      ∧ 0 ≤ (calcValuesAsympt fs s).Z := by
  simp only [calcValuesAsympt]
  set q := 0.5 * fs.mu * fs.sigma_s * s with hqdef
  clear_value q
  have h8 : (0:ℝ) < q - 1 := by linarith
  have hq : (0:ℝ) < q := by linarith
  have ht : 0 < Real.exp (-2 * q) := Real.exp_pos _
  have ht1 : Real.exp (-2 * q) < 1 := by
    rw [Real.exp_lt_one_iff]
    linarith
  refine ⟨by positivity, by positivity, ?_, ?_, ?_⟩
  · exact mul_nonneg (by positivity) hp.le
  · exact mul_nonneg (by positivity) (by positivity)
  · have hden : (0:ℝ) < 1 - Real.exp (-2 * q) * Real.exp (-2 * q) := by nlinarith
    positivity

/-- Nonnegativity of every shape parameter on the exact closed-form
branch (valid for any positive optical depth). -/
theorem calcValuesExact_nonneg (fs : FwdScat) (s : ℝ)
    (hq : 0 < 0.5 * fs.mu * fs.sigma_s * s) (hp : 0 < 0.5 * fs.mu * fs.sigma_s) :
    0 ≤ (calcValuesExact fs s).C ∧ 0 ≤ (calcValuesExact fs s).D
      ∧ 0 ≤ (calcValuesExact fs s).E ∧ 0 ≤ (calcValuesExact fs s).F
      ∧ 0 ≤ (calcValuesExact fs s).Z := by
  simp only [calcValuesExact]
  set q := 0.5 * fs.mu * fs.sigma_s * s with hqdef
  clear_value q
  have ht : 0 < Real.exp (-2 * q) := Real.exp_pos _
  have ht1 : Real.exp (-2 * q) < 1 := by
    rw [Real.exp_lt_one_iff]
    linarith
  have hdE := denE_pos hq
  have hnD := numD_pos hq
  have hdD : 0 < q - 1 + 2 * Real.exp (-2 * q)
      - (q + 1) * (Real.exp (-2 * q) * Real.exp (-2 * q)) := by
    have hfac : q - 1 + 2 * Real.exp (-2 * q)
        - (q + 1) * (Real.exp (-2 * q) * Real.exp (-2 * q))
        = (1 - Real.exp (-2 * q)) * (q - 1 + (q + 1) * Real.exp (-2 * q)) := by
      ring
    rw [hfac]
    exact mul_pos (by linarith) hdE
  refine ⟨by positivity, ?_, ?_, ?_, ?_⟩
  · exact div_nonneg (by nlinarith) hdD.le
  · exact mul_nonneg (div_nonneg (by nlinarith) hdE.le) hp.le
  · exact mul_nonneg (div_nonneg (by nlinarith) hdE.le) (by positivity)
  · have hden : (0:ℝ) < 1 - Real.exp (-2 * q) * Real.exp (-2 * q) := by nlinarith
    positivity

/-- C4.  Nonnegativity of the shape parameters: for mu in (0,1],
sigma_s > 0 and s > 0 the values computed by calcValues satisfy C, D, E, F,
Z >= 0 in each of the three ps-regime branches, over exact real
arithmetic. -/
theorem calcValues_nonneg (fs : FwdScat) (s : ℝ) (hmu : 0 < fs.mu)
    (hmu1 : fs.mu ≤ 1) (hss : 0 < fs.sigma_s) (hs : 0 < s) :
    0 ≤ (calcValues fs s).C ∧ 0 ≤ (calcValues fs s).D ∧ 0 ≤ (calcValues fs s).E
      ∧ 0 ≤ (calcValues fs s).F ∧ 0 ≤ (calcValues fs s).Z := by
  have hq : (0:ℝ) < 0.5 * fs.mu * fs.sigma_s * s := by positivity
  have hp : (0:ℝ) < 0.5 * fs.mu * fs.sigma_s := by positivity
  rw [calcValues]
  split_ifs with h1 h2
  · exact calcValuesSeries_nonneg fs s hq h1 hp
  · exact calcValuesAsympt_nonneg fs s h2 hp
  · exact calcValuesExact_nonneg fs s hq hp

/-- C4 witness at mu = 1, sigma_s = 2, s = 1 (the exact branch, ps = 1). -/
theorem calcValues_nonneg_witness :
    0 ≤ (calcValues fsW 1).C ∧ 0 ≤ (calcValues fsW 1).D ∧ 0 ≤ (calcValues fsW 1).E
      ∧ 0 ≤ (calcValues fsW 1).F ∧ 0 ≤ (calcValues fsW 1).Z :=
  calcValues_nonneg fsW 1 (by norm_num [fsW]) (by norm_num [fsW]) (by norm_num [fsW])
    (by norm_num)

/-- Scaling compatibility of relative-error bounds: a common factor on both
members leaves a relative bound intact. -/
theorem abs_sub_mul_le_of_abs_sub_le {a b c eps : ℝ} (h : |a - b| ≤ eps * |b|) :
    |a * c - b * c| ≤ eps * |b * c| := by
  rw [show a * c - b * c = (a - b) * c by ring, abs_mul, abs_mul, ← mul_assoc]
  exact mul_le_mul_of_nonneg_right h (abs_nonneg c)

/-- Two-sided rational bounds on exp(-3/5), via the 13-term Taylor partial
sum and the remainder estimate of Real.exp_bound. -/
theorem exp_neg_point6_bounds :
    (0.54881163609 : ℝ) ≤ Real.exp (-(3 / 5)) ∧ Real.exp (-(3 / 5)) ≤ 0.54881163610 := by
  have habs : |(-(3 : ℝ) / 5)| = 3 / 5 := by
    rw [abs_of_nonpos (by norm_num)]
    norm_num
  have hb := Real.exp_bound (x := -(3 : ℝ) / 5) (by rw [habs]; norm_num) (n := 13)
    (by norm_num)
  rw [Finset.sum_range_succ, Finset.sum_range_succ, Finset.sum_range_succ,
    Finset.sum_range_succ, Finset.sum_range_succ, Finset.sum_range_succ,
    Finset.sum_range_succ, Finset.sum_range_succ, Finset.sum_range_succ,
    Finset.sum_range_succ, Finset.sum_range_succ, Finset.sum_range_succ,
    Finset.sum_range_one, habs] at hb
  norm_num [Nat.factorial] at hb
  obtain ⟨h1, h2⟩ := abs_le.mp hb
  constructor
  · nlinarith [h1, h2]
  · nlinarith [h1, h2]

/-- Crude but sufficient upper bound on exp(-18), via exp 1 > 2.7182818283. -/
theorem exp_neg18_lt : Real.exp (-18 : ℝ) < 1.6e-8 := by
  have h18 : (6.25e7 : ℝ) < Real.exp 18 := by
    have hpow : ((2.7182818283 : ℝ)) ^ (18 : ℕ) < Real.exp 1 ^ (18 : ℕ) := by
      apply pow_lt_pow_left Real.exp_one_gt_d9 (by norm_num)
      norm_num
    have hexp : Real.exp 18 = Real.exp 1 ^ (18 : ℕ) := by
      rw [← Real.exp_nat_mul]
      norm_num
    rw [hexp]
    calc (6.25e7 : ℝ) < (2.7182818283 : ℝ) ^ (18 : ℕ) := by norm_num
    _ < Real.exp 1 ^ (18 : ℕ) := hpow
  rw [Real.exp_neg, show (1.6e-8 : ℝ) = (6.25e7 : ℝ)⁻¹ by norm_num]
  rw [inv_lt_inv (Real.exp_pos 18) (by norm_num)]
  exact h18

set_option maxHeartbeats 1600000 in
/-- C6.  Branch agreement at the regime boundaries, over exact real
arithmetic: at ps = 0.3 the series branch and the exact closed-form branch
of calcValues agree within 1e-6 relative error, and at ps = 9 the exact
branch and the asymptotic branch agree within 1e-6 relative error, for each
of C, D, E, F and Z, for every mu in (0,1] and sigma_s > 0 (s3 and s9 are
the lengths at which the optical depth is 0.3 and 9). -/
theorem calcValues_branch_agreement (fs : FwdScat) (s3 s9 : ℝ)
    (hmu : 0 < fs.mu) (hmu1 : fs.mu ≤ 1) (hss : 0 < fs.sigma_s)
    (h3 : 0.5 * fs.mu * fs.sigma_s * s3 = 0.3)
    (h9 : 0.5 * fs.mu * fs.sigma_s * s9 = 9) :
    (|(calcValuesSeries fs s3).C - (calcValuesExact fs s3).C|
        ≤ 1e-6 * |(calcValuesExact fs s3).C|
      ∧ |(calcValuesSeries fs s3).D - (calcValuesExact fs s3).D|
        ≤ 1e-6 * |(calcValuesExact fs s3).D|
      ∧ |(calcValuesSeries fs s3).E - (calcValuesExact fs s3).E|
        ≤ 1e-6 * |(calcValuesExact fs s3).E|
      ∧ |(calcValuesSeries fs s3).F - (calcValuesExact fs s3).F|
        ≤ 1e-6 * |(calcValuesExact fs s3).F|
      ∧ |(calcValuesSeries fs s3).Z - (calcValuesExact fs s3).Z|
        ≤ 1e-6 * |(calcValuesExact fs s3).Z|)
    ∧ (|(calcValuesAsympt fs s9).C - (calcValuesExact fs s9).C|
        ≤ 1e-6 * |(calcValuesExact fs s9).C|
      ∧ |(calcValuesAsympt fs s9).D - (calcValuesExact fs s9).D|
        ≤ 1e-6 * |(calcValuesExact fs s9).D|
      ∧ |(calcValuesAsympt fs s9).E - (calcValuesExact fs s9).E|
        ≤ 1e-6 * |(calcValuesExact fs s9).E|
      ∧ |(calcValuesAsympt fs s9).F - (calcValuesExact fs s9).F|
        ≤ 1e-6 * |(calcValuesExact fs s9).F|
      ∧ |(calcValuesAsympt fs s9).Z - (calcValuesExact fs s9).Z|
        ≤ 1e-6 * |(calcValuesExact fs s9).Z|) := by
  have hp : (0:ℝ) < 0.5 * fs.mu * fs.sigma_s := by positivity
  constructor
  · -- boundary ps = 0.3
    simp only [calcValuesSeries, calcValuesExact]
    rw [h3, show (-2 : ℝ) * (0.3 : ℝ) = -(3 / 5) by norm_num]
    obtain ⟨htl, hth⟩ := exp_neg_point6_bounds
    set t := Real.exp (-(3 / 5)) with htdef
    clear_value t
    have htlth : (0:ℝ) ≤ (t - 0.54881163609) * (0.54881163610 - t) :=
      mul_nonneg (by linarith) (by linarith)
    have hdenE : (0:ℝ) < (0.3 : ℝ) - 1 + ((0.3 : ℝ) + 1) * t := by nlinarith
    have hdenD : (0:ℝ) < (0.3 : ℝ) - 1 + 2 * t - ((0.3 : ℝ) + 1) * (t * t) := by nlinarith
    have hZden : (0:ℝ) < 1 - t * t := by nlinarith
    have hDlo : (4.97033085 : ℝ)
        ≤ 0.75 * (1 - 4 * 0.3 * t - t * t) / (0.3 - 1 + 2 * t - (0.3 + 1) * (t * t)) := by
      rw [le_div_iff hdenD]
      nlinarith
    have hDhi : 0.75 * (1 - 4 * 0.3 * t - t * t) / (0.3 - 1 + 2 * t - (0.3 + 1) * (t * t))
        ≤ (4.97033095 : ℝ) := by
      rw [div_le_iff hdenD]
      nlinarith
    have hElo : (50.299229 : ℝ) ≤ 1.5 * (1 - t) / (0.3 - 1 + (0.3 + 1) * t) := by
      rw [le_div_iff hdenE]
      nlinarith
    have hEhi : 1.5 * (1 - t) / (0.3 - 1 + (0.3 + 1) * t) ≤ (50.299232 : ℝ) := by
      rw [div_le_iff hdenE]
      nlinarith
    have hFlo : (172.664095 : ℝ) ≤ 1.5 * (1 + t) / (0.3 - 1 + (0.3 + 1) * t) := by
      rw [le_div_iff hdenE]
      nlinarith
    have hFhi : 1.5 * (1 + t) / (0.3 - 1 + (0.3 + 1) * t) ≤ (172.664115 : ℝ) := by
      rw [div_le_iff hdenE]
      nlinarith
    have hZlo : (4.7121386 : ℝ) ≤ 6 * t / (1 - t * t) := by
      rw [le_div_iff hZden]
      nlinarith
    have hZhi : 6 * t / (1 - t * t) ≤ (4.7121388 : ℝ) := by
      rw [div_le_iff hZden]
      nlinarith
    have hDpos : (0:ℝ)
        < 0.75 * (1 - 4 * 0.3 * t - t * t) / (0.3 - 1 + 2 * t - (0.3 + 1) * (t * t)) := by
      linarith
    have hEpos : (0:ℝ) < 1.5 * (1 - t) / (0.3 - 1 + (0.3 + 1) * t) := by linarith
    have hFpos : (0:ℝ) < 1.5 * (1 + t) / (0.3 - 1 + (0.3 + 1) * t) := by linarith
    have hZpos : (0:ℝ) < 6 * t / (1 - t * t) := by linarith
    refine ⟨?_, ?_, ?_, ?_, ?_⟩
    · rw [sub_self, abs_zero]
      positivity
    · rw [abs_of_pos hDpos, abs_sub_le_iff]
      constructor <;> nlinarith
    · apply abs_sub_mul_le_of_abs_sub_le
      rw [abs_of_pos hEpos, abs_sub_le_iff]
      constructor <;> nlinarith
    · apply abs_sub_mul_le_of_abs_sub_le
      rw [abs_of_pos hFpos, abs_sub_le_iff]
      constructor <;> nlinarith
    · rw [abs_of_pos hZpos, abs_sub_le_iff]
      constructor <;> nlinarith
  · -- boundary ps = 9
    simp only [calcValuesAsympt, calcValuesExact]
    rw [h9, show (-2 : ℝ) * (9 : ℝ) = -18 by norm_num]
    have ht0 := Real.exp_pos (-18 : ℝ)
    have ht9 := exp_neg18_lt
    set t := Real.exp (-18 : ℝ) with htdef
    clear_value t
    have hdenE9 : (0:ℝ) < (9 : ℝ) - 1 + ((9 : ℝ) + 1) * t := by nlinarith
    have hdenD9 : (0:ℝ) < (9 : ℝ) - 1 + 2 * t - ((9 : ℝ) + 1) * (t * t) := by nlinarith
    have hD9lo : (0.09374994 : ℝ)
        ≤ 0.75 * (1 - 4 * 9 * t - t * t) / (9 - 1 + 2 * t - (9 + 1) * (t * t)) := by
      rw [le_div_iff hdenD9]
      nlinarith
    have hD9hi : 0.75 * (1 - 4 * 9 * t - t * t) / (9 - 1 + 2 * t - (9 + 1) * (t * t))
        ≤ 0.75 * (1 / (9 - 1)) := by
      rw [div_le_iff hdenD9]
      nlinarith
    have hE9lo : (0.18749996 : ℝ) ≤ 1.5 * (1 - t) / (9 - 1 + (9 + 1) * t) := by
      rw [le_div_iff hdenE9]
      nlinarith
    have hE9hi : 1.5 * (1 - t) / (9 - 1 + (9 + 1) * t) ≤ 1.5 * (1 / (9 - 1)) := by
      rw [div_le_iff hdenE9]
      nlinarith
    have hF9lo : (0.18749996 : ℝ) ≤ 1.5 * (1 + t) / (9 - 1 + (9 + 1) * t) := by
      rw [le_div_iff hdenE9]
      nlinarith
    have hF9hi : 1.5 * (1 + t) / (9 - 1 + (9 + 1) * t) ≤ 1.5 * (1 / (9 - 1)) := by
      rw [div_le_iff hdenE9]
      nlinarith
    have hD9pos : (0:ℝ)
        < 0.75 * (1 - 4 * 9 * t - t * t) / (9 - 1 + 2 * t - (9 + 1) * (t * t)) := by
      linarith
    have hE9pos : (0:ℝ) < 1.5 * (1 - t) / (9 - 1 + (9 + 1) * t) := by linarith
    have hF9pos : (0:ℝ) < 1.5 * (1 + t) / (9 - 1 + (9 + 1) * t) := by linarith
    refine ⟨?_, ?_, ?_, ?_, ?_⟩
    · rw [sub_self, abs_zero]
      positivity
    · rw [abs_of_pos hD9pos, abs_sub_le_iff]
      constructor <;> nlinarith
    · apply abs_sub_mul_le_of_abs_sub_le
      rw [abs_of_pos hE9pos, abs_sub_le_iff]
      constructor <;> nlinarith
    · apply abs_sub_mul_le_of_abs_sub_le
      rw [abs_of_pos hF9pos, abs_sub_le_iff]
      constructor <;> nlinarith
    · rw [sub_self, abs_zero]
      positivity

/-- C6 witness at mu = 1, sigma_s = 2 (p = 1): boundary lengths s = 0.3 and
s = 9. -/
theorem calcValues_branch_agreement_witness :
    (|(calcValuesSeries fsW 0.3).D - (calcValuesExact fsW 0.3).D|
        ≤ 1e-6 * |(calcValuesExact fsW 0.3).D|)
    ∧ (|(calcValuesAsympt fsW 9).D - (calcValuesExact fsW 9).D|
        ≤ 1e-6 * |(calcValuesExact fsW 9).D|) :=
  ⟨(calcValues_branch_agreement fsW 0.3 9 (by norm_num [fsW]) (by norm_num [fsW])
      (by norm_num [fsW]) (by norm_num [fsW]) (by norm_num [fsW])).1.2.1,
   (calcValues_branch_agreement fsW 0.3 9 (by norm_num [fsW]) (by norm_num [fsW])
      (by norm_num [fsW]) (by norm_num [fsW]) (by norm_num [fsW])).2.2.1⟩

/-- The geometric bracket expansion exits with a false guard whenever the
cap is below 3^fuel times the starting point: at the returned value the
while-guard of the source no longer holds, so the fuelled recursion agrees
with the unbounded loop. -/
theorem expandHi_guard_false (target : ℝ → ℝ) (cap : ℝ) :
    ∀ (n : ℕ) (hi : ℝ), cap ≤ 3 ^ n * hi →
      ¬(target (expandHi target cap n hi) < 0 ∧ expandHi target cap n hi < cap) := by
  intro n
  induction n with
  | zero =>
      intro hi hcap
      rw [expandHi]
      rintro ⟨-, hlt⟩
      simp only [pow_zero, one_mul] at hcap
      linarith
  | succ n ih =>
      intro hi hcap
      rw [expandHi]
      split_ifs with hg
      · apply ih
        rw [pow_succ] at hcap
        nlinarith
      · exact hg


/-- C8.  Bounded root search of the long-limit length sampler: the
geometric bracket expansion (hi times 3 only while hi < 1e4 * 1000/A)
provably exits within the 9 steps of fuel the model gives it -- the loop
guard is false at the returned endpoint, so the fuelled recursion agrees
with the unbounded while loop of the source, which therefore terminates --
and each failure mode that is expressible over the reals (the cdf at the
lower bracket end positive, failure to bracket the root, an exception or
non-convergence of the solver, modelled by toms748 = none) makes
sampleLengthLongLimit return 0, never stalling or propagating an error.
The iteration cap 1000 is passed to the abstract solver exactly as in the
source; the non-finite-value escapes are vacuous in exact arithmetic. -/
theorem sampleLengthLongLimit_bounded {σ : Type} (ext : Externals σ)
    (fs : FwdScat) (R uL : Vec3) (s0 : ℝ) (st : σ)
    (hsa : 0 ≤ fs.sigma_a) (hp : 0 < 0.5 * fs.sigma_s * fs.mu)
    (hbeta : 0 < 3 / 2 * (((0.5 * fs.sigma_s * fs.mu) • R).lengthSq
        - dot ((0.5 * fs.sigma_s * fs.mu) • R) uL)) :
    (¬(longLimitTheTarget ext fs R uL (ext.next1D st).1
          (longLimitHiExpanded ext fs R uL (ext.next1D st).1) < 0
        ∧ longLimitHiExpanded ext fs R uL (ext.next1D st).1 < 1e4 * longLimitHi0 fs))
    ∧ (longLimitTheTarget ext fs R uL (ext.next1D st).1 0 > 0 →
        (sampleLengthLongLimit ext fs R uL s0 st).1 = 0)
    ∧ (longLimitTheTarget ext fs R uL (ext.next1D st).1
          (longLimitHiExpanded ext fs R uL (ext.next1D st).1) < 0 →
        (sampleLengthLongLimit ext fs R uL s0 st).1 = 0)
    ∧ (ext.toms748 (longLimitTheTarget ext fs R uL (ext.next1D st).1) 0
          (longLimitHiExpanded ext fs R uL (ext.next1D st).1) 1000 = none →
        (sampleLengthLongLimit ext fs R uL s0 st).1 = 0) := by
  have hh : 0 ≤ longLimitHi0 fs := by
    rw [longLimitHi0]
    positivity
  refine ⟨?_, ?_, ?_, ?_⟩
  · rw [longLimitHiExpanded]
    apply expandHi_guard_false
    nlinarith
  · intro hfail
    rw [sampleLengthLongLimit, if_neg hp.ne', if_neg (not_le.mpr hbeta)]
    simp only [longLimitTheTarget, longLimitSA, longLimitSB, longLimitHi0,
      longLimitHiExpanded] at hfail ⊢
    rw [if_pos hfail]
  · intro hfail
    rw [sampleLengthLongLimit, if_neg hp.ne', if_neg (not_le.mpr hbeta)]
    simp only [longLimitTheTarget, longLimitSA, longLimitSB, longLimitHi0,
      longLimitHiExpanded] at hfail ⊢
    split_ifs with hlo
    · rfl
    · rfl
  · intro hfail
    rw [sampleLengthLongLimit, if_neg hp.ne', if_neg (not_le.mpr hbeta)]
    simp only [longLimitTheTarget, longLimitSA, longLimitSB, longLimitHi0,
      longLimitHiExpanded] at hfail ⊢
    split_ifs with hlo hhi
    · rfl
    · rfl
    · rw [hfail]

/-- C8 witness: a configuration with positive beta, on which the abstract
solver of the concrete instantiation always fails, so the sampler returns
pdf 0. -/
theorem sampleLengthLongLimit_bounded_witness :
    ((0:ℝ) ≤ fsW.sigma_a ∧ (0:ℝ) < 0.5 * fsW.sigma_s * fsW.mu
      ∧ (0:ℝ) < 3 / 2 * (((0.5 * fsW.sigma_s * fsW.mu) • (⟨0, 0, 2⟩ : Vec3)).lengthSq
          - dot ((0.5 * fsW.sigma_s * fsW.mu) • (⟨0, 0, 2⟩ : Vec3)) ⟨0, 0, -1⟩))
    ∧ (extW.toms748 (longLimitTheTarget extW fsW ⟨0, 0, 2⟩ ⟨0, 0, -1⟩
          ((extW.next1D ()).1)) 0
        (longLimitHiExpanded extW fsW ⟨0, 0, 2⟩ ⟨0, 0, -1⟩ ((extW.next1D ()).1)) 1000 = none →
        (sampleLengthLongLimit extW fsW ⟨0, 0, 2⟩ ⟨0, 0, -1⟩ 5 ()).1 = 0) := by
  have h1 : (0:ℝ) ≤ fsW.sigma_a := by norm_num [fsW]
  have h2 : (0:ℝ) < 0.5 * fsW.sigma_s * fsW.mu := by norm_num [fsW]
  have h3 : (0:ℝ) < 3 / 2 * (((0.5 * fsW.sigma_s * fsW.mu) • (⟨0, 0, 2⟩ : Vec3)).lengthSq
      - dot ((0.5 * fsW.sigma_s * fsW.mu) • (⟨0, 0, 2⟩ : Vec3)) ⟨0, 0, -1⟩) := by
    norm_num [fsW, Vec3.lengthSq, dot]
  exact ⟨⟨h1, h2, h3⟩,
    (sampleLengthLongLimit_bounded extW fsW ⟨0, 0, 2⟩ ⟨0, 0, -1⟩ 5 () h1 h2 h3).2.2.2⟩

@[simp]
theorem Vec3.neg_neg_eq (v : Vec3) : -(-v) = v := by
  ext <;> simp

@[simp]
theorem dot_neg_left (a b : Vec3) : dot (-a) b = -(dot a b) := by
  simp [dot]
  ring

/-- The monopole value is strictly positive at the concrete counterexample
configuration: the normalization constant is positive (short-ps series
branch) and the exponential factor is positive. -/
theorem evalMonopole_pos_cex :
    0 < evalMonopole extW fsW ⟨0, -1, 0⟩ ⟨0, 0, 1⟩ ⟨0, 0, -1⟩ (1 / 200) := by
  have hN : 0 < absorptionAndNormalizationConstant fsW (1 / 200) := by
    rw [absorptionAndNormalizationConstant]
    rw [if_pos (by norm_num [fsW])]
    have h1 : (0:ℝ) < 0.5 * fsW.sigma_s * fsW.mu := by norm_num [fsW]
    have h2 : (0:ℝ) < 0.5 * fsW.sigma_s * fsW.mu * (1 / 200) := by norm_num [fsW]
    have h3 : (0:ℝ) < 81 / 32 + 891 / 320 * (0.5 * fsW.sigma_s * fsW.mu * (1 / 200))
        + 8721 / 6400 * (0.5 * fsW.sigma_s * fsW.mu * (1 / 200))
          * (0.5 * fsW.sigma_s * fsW.mu * (1 / 200))
        + -374841 / 448000 * (0.5 * fsW.sigma_s * fsW.mu * (1 / 200))
          * (0.5 * fsW.sigma_s * fsW.mu * (1 / 200)) * (0.5 * fsW.sigma_s * fsW.mu * (1 / 200)) := by
      norm_num [fsW]
    positivity
  rw [evalMonopole]
  exact mul_pos hN (Real.exp_pos _)

theorem extW_refract (v n : Vec3) (e : ℝ) : extW.refract v n e = (-v, 0) := rfl

theorem extW_fdr (x : ℝ) : extW.fresnelDiffuseReflectance x = 0 := rfl

theorem extW_dEonA (x : ℝ) : extW.dEon_A x = 1 := rfl

theorem extW_dmm : extW.directionMinMu = 1 := rfl

theorem fsW_ss : fsW.sigma_s = 2 := rfl

theorem fsW_sa : fsW.sigma_a = 0 := rfl

theorem fsW_mu : fsW.mu = 1 := rfl

theorem fsW_eta : fsW.m_eta = 1 := rfl

/-- C2 counterexample. -/
theorem evalDipole_reciprocity_cex :
    evalDipole extW fsW ⟨0, 0, 1⟩ ⟨0, 0, -1⟩ ⟨0, 1, 0⟩ ⟨0, 1, 0⟩ ⟨0, 0, 1⟩
        (1 / 200) false true .EFrisvadEtAl .EClassicDiffusion false .EReal
      ≠ evalDipole extW fsW ⟨0, 1, 0⟩ (-⟨0, 1, 0⟩) ⟨0, 0, 1⟩ (-⟨0, 0, -1⟩) (-⟨0, 0, 1⟩)
        (1 / 200) false true .EFrisvadEtAl .EClassicDiffusion false .EReal := by
  have hL : evalDipole extW fsW ⟨0, 0, 1⟩ ⟨0, 0, -1⟩ ⟨0, 1, 0⟩ ⟨0, 1, 0⟩ ⟨0, 0, 1⟩
      (1 / 200) false true .EFrisvadEtAl .EClassicDiffusion false .EReal = 0 := by
    norm_num [evalDipole, getVirtualDipoleSource, extW, fsW, dot, cross,
      Vec3.length, Vec3.lengthSq, Vec3.normalize, clamp]
  have hR : 0 < evalDipole extW fsW ⟨0, 1, 0⟩ ⟨0, -1, 0⟩ ⟨0, 0, 1⟩ ⟨0, 0, 1⟩ ⟨0, 0, -1⟩
      (1 / 200) false true .EFrisvadEtAl .EClassicDiffusion false .EReal := by
    have hM := evalMonopole_pos_cex
    norm_num [evalDipole, evalDipoleNR, getVirtualDipoleSource, extW_refract, extW_fdr,
      extW_dEonA, fsW_ss, fsW_sa, fsW_mu, fsW_eta, dot, cross,
      Vec3.length, Vec3.lengthSq, Vec3.normalize, DipoleMode.hasReal, Vec3.zero_def,
      Vec3.mk.injEq]
    rw [if_neg (show ¬((⟨0, -1, 0⟩ : Vec3) = 0 ∨ (⟨0, 0, 1⟩ : Vec3) = 0) by
      simp [Vec3.zero_def, Vec3.ext_iff])]
    linarith [hM]
  rw [show (-(⟨0, 1, 0⟩ : Vec3)) = ⟨0, -1, 0⟩ by ext <;> norm_num,
    show (-(⟨0, 0, -1⟩ : Vec3)) = ⟨0, 0, 1⟩ by ext <;> norm_num,
    show (-(⟨0, 0, 1⟩ : Vec3)) = ⟨0, 0, -1⟩ by ext <;> norm_num, hL]
  exact ne_of_lt hR

theorem evalDipoleNR_of_gvds {σ : Type} (ext : Externals σ) (fs : FwdScat)
    (n0 u0e nL uLe R : Vec3) (len : ℝ) (rii : Bool) (tm : TangentPlaneMode)
    (zm : ZvMode) (dm : DipoleMode) (a b c : Vec3)
    (hrefr : ∀ v n, ext.refract v n fs.m_eta = (-v, 0))
    (h1 : 0 < dot uLe nL) (h2 : dot u0e n0 < 0)
    (hu0 : u0e ≠ 0) (huL : uLe ≠ 0)
    (hg : getVirtualDipoleSource ext fs n0 u0e nL uLe R len rii tm zm
      = some (a, b, c)) :
    evalDipoleNR ext fs n0 u0e nL uLe R len rii tm zm false dm
      = dipoleTransport ext fs u0e uLe R a b len dm := by
  rw [evalDipoleNR, if_neg (not_le.mpr h1), if_neg (not_le.mpr h2)]
  simp only [hrefr, Vec3.neg_neg_eq]
  rw [if_neg (by rintro (h | h); exacts [hu0 h, huL h]), hg]
  cases dm <;> simp [dipoleTransport]

theorem evalDipole_recip_of_gvds {σ : Type} (ext : Externals σ) (fs : FwdScat)
    (n0 u0e nL uLe R : Vec3) (len : ℝ) (rii : Bool) (tm : TangentPlaneMode)
    (zm : ZvMode) (dm : DipoleMode) (a1 b1 c1 a2 b2 c2 : Vec3)
    (hrefr : ∀ v n, ext.refract v n fs.m_eta = (-v, 0))
    (h1 : 0 < dot uLe nL) (h2 : dot u0e n0 < 0)
    (hu0 : u0e ≠ 0) (huL : uLe ≠ 0)
    (hg1 : getVirtualDipoleSource ext fs n0 u0e nL uLe R len rii tm zm
      = some (a1, b1, c1))
    (hg2 : getVirtualDipoleSource ext fs nL (-uLe) n0 (-u0e) (-R) len rii tm zm
      = some (a2, b2, c2)) :
    evalDipole ext fs n0 u0e nL uLe R len rii true tm zm false dm
      = 0.5 * (dipoleTransport ext fs u0e uLe R a1 b1 len dm
          + dipoleTransport ext fs (-uLe) (-u0e) (-R) a2 b2 len dm) := by
  rw [evalDipole, if_neg (not_le.mpr h1), if_neg (not_le.mpr h2)]
  simp only [hrefr, Vec3.neg_neg_eq]
  rw [if_neg (by rintro (h | h); exacts [hu0 h, huL h]), hg1,
    evalDipoleNR_of_gvds ext fs nL (-uLe) n0 (-u0e) (-R) len rii tm zm dm a2 b2 c2
      hrefr (by rw [dot_neg_left]; linarith) (by rw [dot_neg_left]; linarith)
      (mt (Vec3.neg_eq_zero uLe).mp huL) (mt (Vec3.neg_eq_zero u0e).mp hu0) hg2]
  cases dm <;> simp [dipoleTransport] <;> ring

/-- C2 amended: at matched boundary conditions (refraction passes the
direction through unchanged up to sign with zero Fresnel reflectance, as
for eta = 1), on the full-BSSRDF path, whenever the virtual source
construction succeeds on both the forward and the time-reversed
configuration, evalDipole with reciprocal = true is exactly symmetric
under time reversal. -/
theorem evalDipole_reciprocal_symm {σ : Type} (ext : Externals σ) (fs : FwdScat)
    (n0 u0e nL uLe R : Vec3) (len : ℝ) (rii : Bool) (tm : TangentPlaneMode)
    (zm : ZvMode) (dm : DipoleMode)
    (hrefr : ∀ v n, ext.refract v n fs.m_eta = (-v, 0))
    (hvs1 : (getVirtualDipoleSource ext fs n0 u0e nL uLe R len rii tm zm).isSome)
    (hvs2 : (getVirtualDipoleSource ext fs nL (-uLe) n0 (-u0e) (-R) len rii tm zm).isSome) :
    evalDipole ext fs n0 u0e nL uLe R len rii true tm zm false dm
      = evalDipole ext fs nL (-uLe) n0 (-u0e) (-R) len rii true tm zm false dm := by
  by_cases h1 : dot uLe nL ≤ 0
  · rw [evalDipole, if_pos h1, evalDipole]
    by_cases h2 : dot (-u0e) n0 ≤ 0
    · rw [if_pos h2]
    · rw [if_neg h2, if_pos (show (0:ℝ) ≤ dot (-uLe) nL by rw [dot_neg_left]; linarith)]
  by_cases h2 : 0 ≤ dot u0e n0
  · rw [evalDipole, evalDipole, if_neg h1, if_pos h2,
      if_pos (show dot (-u0e) n0 ≤ 0 by rw [dot_neg_left]; linarith)]
  push_neg at h1 h2
  have hu0 : u0e ≠ 0 := by rintro rfl; simp [dot, Vec3.zero_def] at h2
  have huL : uLe ≠ 0 := by rintro rfl; simp [dot, Vec3.zero_def] at h1
  obtain ⟨t1, hg1⟩ := Option.isSome_iff_exists.mp hvs1
  obtain ⟨t2, hg2⟩ := Option.isSome_iff_exists.mp hvs2
  obtain ⟨a1, b1, c1⟩ := t1
  obtain ⟨a2, b2, c2⟩ := t2
  rw [evalDipole_recip_of_gvds ext fs n0 u0e nL uLe R len rii tm zm dm a1 b1 c1 a2 b2 c2
      hrefr h1 h2 hu0 huL hg1 hg2,
    evalDipole_recip_of_gvds ext fs nL (-uLe) n0 (-u0e) (-R) len rii tm zm dm a2 b2 c2
      a1 b1 c1 hrefr (by rw [dot_neg_left]; linarith) (by rw [dot_neg_left]; linarith)
      (mt (Vec3.neg_eq_zero uLe).mp huL) (mt (Vec3.neg_eq_zero u0e).mp hu0) hg2 (by simpa using hg1)]
  simp only [Vec3.neg_neg_eq]
  ring

/-- C2 witness for the amended reciprocity statement at a concrete
index-matched configuration. -/
theorem evalDipole_reciprocal_symm_witness :
    (∀ v n, extW.refract v n fsW.m_eta = (-v, 0))
    ∧ (getVirtualDipoleSource extW fsW ⟨0, 0, 1⟩ ⟨0, 0, -1⟩ ⟨0, 0, 1⟩ ⟨0, 0, 1⟩ ⟨1, 0, 0⟩
        1 false .EUnmodifiedIncoming .EClassicDiffusion).isSome
    ∧ (getVirtualDipoleSource extW fsW ⟨0, 0, 1⟩ (-⟨0, 0, 1⟩) ⟨0, 0, 1⟩ (-⟨0, 0, -1⟩)
        (-⟨1, 0, 0⟩) 1 false .EUnmodifiedIncoming .EClassicDiffusion).isSome
    ∧ evalDipole extW fsW ⟨0, 0, 1⟩ ⟨0, 0, -1⟩ ⟨0, 0, 1⟩ ⟨0, 0, 1⟩ ⟨1, 0, 0⟩
        1 false true .EUnmodifiedIncoming .EClassicDiffusion false .EReal
      = evalDipole extW fsW ⟨0, 0, 1⟩ (-⟨0, 0, 1⟩) ⟨0, 0, 1⟩ (-⟨0, 0, -1⟩) (-⟨1, 0, 0⟩)
        1 false true .EUnmodifiedIncoming .EClassicDiffusion false .EReal := by
  have hvs1 : (getVirtualDipoleSource extW fsW ⟨0, 0, 1⟩ ⟨0, 0, -1⟩ ⟨0, 0, 1⟩ ⟨0, 0, 1⟩
      ⟨1, 0, 0⟩ 1 false .EUnmodifiedIncoming .EClassicDiffusion).isSome := by
    simp [getVirtualDipoleSource, fsW, extW]
  have hvs2 : (getVirtualDipoleSource extW fsW ⟨0, 0, 1⟩ (-⟨0, 0, 1⟩) ⟨0, 0, 1⟩
      (-⟨0, 0, -1⟩) (-⟨1, 0, 0⟩) 1 false .EUnmodifiedIncoming .EClassicDiffusion).isSome := by
    simp [getVirtualDipoleSource, fsW, extW]
  exact ⟨fun v n => rfl, hvs1, hvs2,
    evalDipole_reciprocal_symm extW fsW ⟨0, 0, 1⟩ ⟨0, 0, -1⟩ ⟨0, 0, 1⟩ ⟨0, 0, 1⟩ ⟨1, 0, 0⟩
      1 false .EUnmodifiedIncoming .EClassicDiffusion .EReal (fun v n => rfl) hvs1 hvs2⟩

theorem drawPosTruncnorm_nonneg {σ : Type} (ext : Externals σ)
    (htn : ∀ m sd s, 0 ≤ (ext.truncnormSample0Inf m sd s).1) :
    ∀ (n : ℕ) (mean stddev : ℝ) (st : σ),
      0 ≤ (drawPosTruncnorm ext n mean stddev st).1 := by
  intro n
  induction n with
  | zero => intro mean stddev st; exact le_refl 0
  | succ k ih =>
      intro mean stddev st
      rw [drawPosTruncnorm]
      split
      · exact ih mean stddev _
      · exact htn mean stddev st

theorem implLengthShortLimitKnownU0_consistency {σ : Type} (ext : Externals σ)
    (fs : FwdScat) (R u0v uL : Vec3) (st : σ) (s0 : ℝ)
    (htn : ∀ m sd s, 0 ≤ (ext.truncnormSample0Inf m sd s).1) :
    (implLengthShortLimitKnownU0 ext fs R u0v uL (some st) s0).2.1
      = (implLengthShortLimitKnownU0 ext fs R u0v uL none
          (implLengthShortLimitKnownU0 ext fs R u0v uL (some st) s0).1).2.1 := by
  by_cases hr : R.length * (0.5 * fs.sigma_s * fs.mu) = 0
  · simp only [implLengthShortLimitKnownU0, if_pos hr]
  · have hp : (0.5 * fs.sigma_s * fs.mu) ≠ 0 := fun h => hr (by rw [h, mul_zero])
    simp only [implLengthShortLimitKnownU0, if_neg hr]
    set t := (drawPosTruncnorm ext ext.retryFuel
        (shortLimitKnownU0Fit fs R u0v uL).1 (shortLimitKnownU0Fit fs R u0v uL).2 st).1 with ht
    have ht0 : 0 ≤ t := drawPosTruncnorm_nonneg ext htn _ _ _ _
    have hps : 0.5 * fs.sigma_s * fs.mu * (t ^ (-(1 / 3 : ℝ)) / (0.5 * fs.sigma_s * fs.mu))
        = t ^ (-(1 / 3 : ℝ)) := by
      rw [mul_comm]; exact div_mul_cancel₀ _ hp
    have htt : 1 / (t ^ (-(1 / 3 : ℝ)) * t ^ (-(1 / 3 : ℝ)) * t ^ (-(1 / 3 : ℝ))) = t := by
      rcases eq_or_lt_of_le ht0 with h0 | hpos
      · rw [← h0, Real.zero_rpow (by norm_num)]
        norm_num
      · rw [← Real.rpow_add hpos, ← Real.rpow_add hpos,
          show (-(1 / 3 : ℝ)) + -(1 / 3) + -(1 / 3) = -1 by norm_num,
          Real.rpow_neg_one, one_div, inv_inv]
    rw [hps, htt]

theorem implMargInternal_consistency {σ : Type} (ext : Externals σ)
    (fs : FwdScat) (R uL : Vec3) (st : σ) (s0 safetyFac : ℝ)
    (htn : ∀ m sd s, 0 ≤ (ext.truncnormSample0Inf m sd s).1) :
    (implLengthShortLimitMargOverU0_internal ext fs R uL (some st) s0 safetyFac).2.1
      = (implLengthShortLimitMargOverU0_internal ext fs R uL none
          (implLengthShortLimitMargOverU0_internal ext fs R uL (some st) s0 safetyFac).1
          safetyFac).2.1 := by
  by_cases hr : R.length * (0.5 * fs.sigma_s * fs.mu) = 0
  · simp only [implLengthShortLimitMargOverU0_internal, if_pos hr]
  · have hp : (0.5 * fs.sigma_s * fs.mu) ≠ 0 := fun h => hr (by rw [h, mul_zero])
    simp only [implLengthShortLimitMargOverU0_internal, if_neg hr]
    have hps : ∀ x : ℝ, x / (0.5 * fs.sigma_s * fs.mu) * (0.5 * fs.sigma_s * fs.mu) = x :=
      fun x => div_mul_cancel₀ x hp
    by_cases hub : (if (shortLimitMargOverU0Fit fs R uL safetyFac).2.1
          / (shortLimitMargOverU0Fit fs R uL safetyFac).2.2 < -1e7 then (1 : ℝ)
        else (shortLimitMargOverU0Fit fs R uL safetyFac).1) = 1
    · simp only [if_pos hub, hps]
    · simp only [if_neg hub, hps]
      by_cases hd0 : (ext.next1D st).1 < (if (shortLimitMargOverU0Fit fs R uL safetyFac).2.1
            / (shortLimitMargOverU0Fit fs R uL safetyFac).2.2 < -1e7 then (1 : ℝ)
          else (shortLimitMargOverU0Fit fs R uL safetyFac).1)
      · simp only [if_pos hd0, hps]
      · simp only [if_neg hd0, hps]
        set t := (drawPosTruncnorm ext ext.retryFuel
            (shortLimitMargOverU0Fit fs R uL safetyFac).2.1
            (shortLimitMargOverU0Fit fs R uL safetyFac).2.2 (ext.next1D st).2).1 with ht
        have ht0 : 0 ≤ t := drawPosTruncnorm_nonneg ext htn _ _ _ _
        have htt : (t ^ (-(2 / 5 : ℝ))) ^ (-(5 / 2 : ℝ)) = t := by
          rw [← Real.rpow_mul ht0, show (-(2 / 5 : ℝ)) * (-(5 / 2)) = 1 by norm_num,
            Real.rpow_one]
        rw [htt]

theorem implMarg_consistency {σ : Type} (ext : Externals σ)
    (fs : FwdScat) (R uL : Vec3) (st : σ) (s0 : ℝ)
    (htn : ∀ m sd s, 0 ≤ (ext.truncnormSample0Inf m sd s).1) :
    (implLengthShortLimitMargOverU0 ext fs R uL (some st) s0).2.1
      = (implLengthShortLimitMargOverU0 ext fs R uL none
          (implLengthShortLimitMargOverU0 ext fs R uL (some st) s0).1).2.1 := by
  simp only [implLengthShortLimitMargOverU0]
  by_cases hu : (ext.next1D st).1 > 0.3
  · simp only [if_pos hu]
    rw [implMargInternal_consistency ext fs R uL (ext.next1D st).2 s0 3 htn]
  · simp only [if_neg hu]
    rw [implMargInternal_consistency ext fs R uL (ext.next1D st).2 s0 1 htn]

theorem sampleLengthShortLimit_consistency {σ : Type} (ext : Externals σ)
    (fs : FwdScat) (R : Vec3) (u0 : Option Vec3) (uL : Vec3) (s0 : ℝ) (st : σ)
    (htn : ∀ m sd s, 0 ≤ (ext.truncnormSample0Inf m sd s).1) :
    (sampleLengthShortLimit ext fs R u0 uL s0 st).1
      = pdfLengthShortLimit ext fs R u0 uL
          (sampleLengthShortLimit ext fs R u0 uL s0 st).2.1 := by
  cases u0 with
  | none =>
      simpa only [sampleLengthShortLimit, pdfLengthShortLimit, implLengthShortLimit]
        using implMarg_consistency ext fs R uL st s0 htn
  | some u0v =>
      simpa only [sampleLengthShortLimit, pdfLengthShortLimit, implLengthShortLimit]
        using implLengthShortLimitKnownU0_consistency ext fs R u0v uL st s0 htn

theorem sampleLengthLongLimit_pdf_or {σ : Type} (ext : Externals σ) (fs : FwdScat)
    (R uL : Vec3) (s0 : ℝ) (st : σ) :
    (sampleLengthLongLimit ext fs R uL s0 st).1 = 0
      ∨ (sampleLengthLongLimit ext fs R uL s0 st).1
        = pdfLengthLongLimit fs R uL (sampleLengthLongLimit ext fs R uL s0 st).2.1 := by
  simp only [sampleLengthLongLimit]
  by_cases hp : (0.5 * fs.sigma_s * fs.mu) = 0
  · left; simp only [if_pos hp]
  · simp only [if_neg hp]
    by_cases hb : (3 / 2 * (((0.5 * fs.sigma_s * fs.mu) • R).lengthSq
        - dot ((0.5 * fs.sigma_s * fs.mu) • R) uL)) ≤ 0
    · simp only [if_pos hb, sampleLengthAbsorption]
      by_cases ha : fs.sigma_a = 0
      · left; simp only [if_pos ha]
      · right
        simp only [if_neg ha, pdfLengthLongLimit, if_neg hp, if_pos hb,
          pdfLengthAbsorption]
    · simp only [if_neg hb]
      split_ifs with h1 h2
      · left; rfl
      · left; rfl
      · split
        · left; rfl
        · right; rfl

theorem sampleLengthDipole_weight_or {σ : Type} (ext : Externals σ) (fs : FwdScat)
    (uL nL R : Vec3) (u0 : Option Vec3) (n0 : Vec3) (tm : TangentPlaneMode)
    (s0 : ℝ) (st : σ)
    (htn : ∀ m sd s, 0 ≤ (ext.truncnormSample0Inf m sd s).1) :
    (sampleLengthDipole ext fs uL nL R u0 n0 tm s0 st).1 = 0
      ∨ (sampleLengthDipole ext fs uL nL R u0 n0 tm s0 st).1
        = 1 / pdfLengthDipole ext fs uL nL R u0 n0 tm
            (sampleLengthDipole ext fs uL nL R u0 n0 tm s0 st).2.1 := by
  have hw1 : ¬((0.5 : ℝ) = 0) := by norm_num
  have hw3 : ((0.0 : ℝ) = 0) := by norm_num
  have hm1 : ((-1 : ℝ) = -1) := rfl
  rcases hE : getTentativeIndexMatchedVirtualSourceDisp ext fs n0 nL uL R (0 / 0) tm
    with _ | Rv
  · left
    simp only [sampleLengthDipole, hE]
  · simp only [sampleLengthDipole, pdfLengthDipole, hE, lengthSample_w1,
      lengthSample_w2, lengthSample_w3, if_neg hw1, if_pos hw1, if_pos hw3]
    by_cases hc : (ext.next1D st).1 < 0.5
    · simp only [if_pos hc]
      by_cases hu1 : (ext.next1D (ext.next1D st).2).1 < 0.5
      · rw [sampleLengthShortLimit_consistency ext fs R u0 uL s0
          (ext.next1D (ext.next1D st).2).2 htn]
        simp only [if_pos hu1]
        by_cases h0 : pdfLengthShortLimit ext fs R u0 uL
            (sampleLengthShortLimit ext fs R u0 uL s0
              (ext.next1D (ext.next1D st).2).2).2.1 = 0
        · left; simp only [if_pos h0]
        · right
          simp only [if_neg h0, if_pos hm1, if_true, if_pos hw3, ite_self]
          try ring
      · simp only [if_neg hu1]
        by_cases hu2 : (ext.next1D (ext.next1D st).2).1 < 0.5 + 0.5
        · rcases sampleLengthLongLimit_pdf_or ext fs R uL s0
              (ext.next1D (ext.next1D st).2).2 with h0 | heq
          · left; simp only [if_pos hu2, if_pos h0]
          · rw [heq]
            by_cases hz : pdfLengthLongLimit fs R uL
                (sampleLengthLongLimit ext fs R uL s0
                  (ext.next1D (ext.next1D st).2).2).2.1 = 0
            · left; simp only [if_pos hu2, if_pos hz]
            · right
              simp only [if_pos hu2, if_neg hz, if_pos hm1, if_true, if_pos hw3, ite_self]
              try ring
        · simp only [if_neg hu2]
          by_cases hu3 : (ext.next1D (ext.next1D st).2).1 < 0.5 + 0.5 + 0.0
          · exact absurd (by linarith : (ext.next1D (ext.next1D st).2).1 < 0.5 + 0.5) hu2
          · right
            simp only [if_neg hu3, if_pos hm1, if_true, if_pos hw3, ite_self]
            try ring
    · simp only [if_neg hc]
      by_cases hu1 : (ext.next1D (ext.next1D st).2).1 < 0.5
      · rw [sampleLengthShortLimit_consistency ext fs R u0 uL s0
          (ext.next1D (ext.next1D st).2).2 htn]
        simp only [if_pos hu1]
        by_cases h0 : pdfLengthShortLimit ext fs R u0 uL
            (sampleLengthShortLimit ext fs R u0 uL s0
              (ext.next1D (ext.next1D st).2).2).2.1 = 0
        · left; simp only [if_pos h0]
        · right
          simp only [if_neg h0, if_pos hm1, if_true, if_pos hw3, ite_self]
          try ring
      · simp only [if_neg hu1]
        by_cases hu2 : (ext.next1D (ext.next1D st).2).1 < 0.5 + 0.5
        · rcases sampleLengthLongLimit_pdf_or ext fs Rv uL s0
              (ext.next1D (ext.next1D st).2).2 with h0 | heq
          · left; simp only [if_pos hu2, if_pos h0]
          · rw [heq]
            by_cases hz : pdfLengthLongLimit fs Rv uL
                (sampleLengthLongLimit ext fs Rv uL s0
                  (ext.next1D (ext.next1D st).2).2).2.1 = 0
            · left; simp only [if_pos hu2, if_pos hz]
            · right
              simp only [if_pos hu2, if_neg hz, if_pos hm1, if_true, if_pos hw3, ite_self]
              try ring
        · simp only [if_neg hu2]
          by_cases hu3 : (ext.next1D (ext.next1D st).2).1 < 0.5 + 0.5 + 0.0
          · exact absurd (by linarith : (ext.next1D (ext.next1D st).2).1 < 0.5 + 0.5) hu2
          · right
            simp only [if_neg hu3, if_pos hm1, if_true, if_pos hw3, ite_self]
            try ring

/-- C1.  Sample/pdf consistency of the length mixture: whenever
sampleLengthDipole succeeds (nonzero importance weight), the returned
weight is exactly the reciprocal of pdfLengthDipole evaluated at the same
configuration and the sampled length; the hypothesis is that the
truncated-normal collaborator respects its [0, inf) support. -/
theorem sampleLengthDipole_pdf_consistency {σ : Type} (ext : Externals σ) (fs : FwdScat)
    (uL nL R : Vec3) (u0 : Option Vec3) (n0 : Vec3) (tm : TangentPlaneMode)
    (s0 : ℝ) (st : σ)
    (htn : ∀ m sd s, 0 ≤ (ext.truncnormSample0Inf m sd s).1)
    (hne : (sampleLengthDipole ext fs uL nL R u0 n0 tm s0 st).1 ≠ 0) :
    (sampleLengthDipole ext fs uL nL R u0 n0 tm s0 st).1
      = 1 / pdfLengthDipole ext fs uL nL R u0 n0 tm
          (sampleLengthDipole ext fs uL nL R u0 n0 tm s0 st).2.1 :=
  (sampleLengthDipole_weight_or ext fs uL nL R u0 n0 tm s0 st htn).resolve_left hne

theorem extW_next1D (st : Unit) : extW.next1D st = (0, st) := rfl

theorem extW_tnPdf (a b c : ℝ) : extW.truncnormPdf0Inf a b c = 1 := rfl

theorem extW_fuel : extW.retryFuel = 1 := rfl

theorem drawW : ∀ m sd : ℝ, drawPosTruncnorm extW 1 m sd () = (1, ()) := by
  intro m sd
  rw [show (1 : ℕ) = 0 + 1 from rfl, drawPosTruncnorm]
  norm_num [extW]

theorem sampleW :
    sampleLengthDipole extW fsW ⟨0, 0, 1⟩ ⟨0, 0, 1⟩ ⟨0, 0, 1⟩ (some ⟨0, 0, -1⟩) ⟨0, 0, 1⟩
      .EUnmodifiedIncoming 5 () = (2 / 3, 1, ()) := by
  norm_num [sampleLengthDipole, getTentativeIndexMatchedVirtualSourceDisp,
    getVirtualDipoleSource, extW_next1D, extW_tnPdf, extW_fdr, extW_fuel, fsW,
    sampleLengthShortLimit, implLengthShortLimit,
    implLengthShortLimitKnownU0, drawW, pdfLengthLongLimit, pdfLengthAbsorption,
    lengthSample_w1, lengthSample_w2, lengthSample_w3, dot, Vec3.length, Vec3.lengthSq,
    Real.one_rpow]

/-- C1 witness at a concrete configuration (weight 2/3, length 1). -/
theorem sampleLengthDipole_pdf_consistency_witness :
    (∀ (m sd : ℝ) (s : Unit), 0 ≤ (extW.truncnormSample0Inf m sd s).1)
    ∧ (sampleLengthDipole extW fsW ⟨0, 0, 1⟩ ⟨0, 0, 1⟩ ⟨0, 0, 1⟩ (some ⟨0, 0, -1⟩)
        ⟨0, 0, 1⟩ .EUnmodifiedIncoming 5 ()).1 ≠ 0
    ∧ (sampleLengthDipole extW fsW ⟨0, 0, 1⟩ ⟨0, 0, 1⟩ ⟨0, 0, 1⟩ (some ⟨0, 0, -1⟩)
        ⟨0, 0, 1⟩ .EUnmodifiedIncoming 5 ()).1
      = 1 / pdfLengthDipole extW fsW ⟨0, 0, 1⟩ ⟨0, 0, 1⟩ ⟨0, 0, 1⟩ (some ⟨0, 0, -1⟩)
          ⟨0, 0, 1⟩ .EUnmodifiedIncoming
          (sampleLengthDipole extW fsW ⟨0, 0, 1⟩ ⟨0, 0, 1⟩ ⟨0, 0, 1⟩ (some ⟨0, 0, -1⟩)
            ⟨0, 0, 1⟩ .EUnmodifiedIncoming 5 ()).2.1 := by
  have htn : ∀ (m sd : ℝ) (s : Unit), 0 ≤ (extW.truncnormSample0Inf m sd s).1 :=
    fun _ _ _ => zero_le_one
  have hne : (sampleLengthDipole extW fsW ⟨0, 0, 1⟩ ⟨0, 0, 1⟩ ⟨0, 0, 1⟩ (some ⟨0, 0, -1⟩)
      ⟨0, 0, 1⟩ .EUnmodifiedIncoming 5 ()).1 ≠ 0 := by
    rw [sampleW]
    norm_num
  exact ⟨htn, hne, sampleLengthDipole_pdf_consistency extW fsW ⟨0, 0, 1⟩ ⟨0, 0, 1⟩
    ⟨0, 0, 1⟩ (some ⟨0, 0, -1⟩) ⟨0, 0, 1⟩ .EUnmodifiedIncoming 5 () htn hne⟩
